import Mathlib

/-!
A verification development for `OperatingSystem.c`

A shallow embedding of the round-robin scheduler simulation in
`src/OperatingSystem.c`: the circular-buffer process queue, the process
control block, the three resource mutexes, the instruction interpreter
(`executeProcess` and the handlers it dispatches to) and the scheduling loop of
`main`.

Conventions of the embedding.

* A `Process *` is an index into the heap of process records (`OS.heap`), which
  is laid out like the `processes[]` array of `main`.  The pointer `NULL`
  returned by `dequeue` on an empty queue is `none`.
* C strings are lists of characters.  A `char[...]` buffer whose bytes behind a
  terminating NUL are read by the code (the variable slots and the current
  instruction line, which `strtok` cuts in place) is a list that may contain
  NUL characters; bytes behind the end of the list are NUL.
* `int` values that the code keeps small and non-negative by construction
  (`front`, `size`, the program counter, the mutexes) are `Nat`; `rear` and
  `cycles_remaining`, which take small negative values, are `Int`.  The clock,
  which the idle loop of a deadlocked run increments without end, and the
  result of `atoi` are 32-bit: an `Int` that `wrapInt` brings back into the
  range of `int` (signed overflow is undefined in C; the compiled program
  wraps around).
* The rows of `instructions[60][100]` are adjacent in the struct and followed
  by the rows of `variables[3][100]`: row 60 of the instruction memory is the
  first variable slot (`Process.row`).
* Standard output is a list of structured events, one per `printf` of the
  interpreter; the table dumps of `printQueue` / `printStorageUnit` only read
  the state and are left out.
* `exit(EXIT_FAILURE)` and a dereferenced `NULL` token stop the machine with a
  recorded fault.
* `free` leaves the process record in place: the record of a finished process
  keeps its `FINISHED` state, which is what the stale ready-queue entries of the
  source read back.
* Memory obtained from `malloc` reads as zero until it is written (empty
  instruction and variable slots), a program file has at most `MEMORY_SIZE`
  lines, and strings are not cut by the size of the buffer they are copied to
  with `strcpy`; `snprintf` and `fgets` cut at their size argument as in C.
-/

namespace OperatingSystem

/-! ## Constants -/

abbrev MEMORY_SIZE : Nat := 60
abbrev MAX_VARIABLES_PER_PROCESS : Nat := 3
abbrev MAX_LINE_LENGTH : Nat := 100
abbrev MAX_PROCESSES : Nat := 10
abbrev TIME_QUANTUM : Int := 1

/-! ## The process queue (lines 48-91) -/

/-- The struct `ProcessQueue`: ten pointer slots, `front`, `rear`, `size`. -/
structure ProcessQueue where
  processes : List Nat
  front : Nat
  rear : Int
  size : Nat
deriving DecidableEq, Repr

/-- The function `initQueue`: resets the three indices and leaves the slots as they are. -/
def initQueue (queue : ProcessQueue) : ProcessQueue :=
  { queue with front := 0, rear := -1, size := 0 }

/-- The function `isQueueEmpty`. -/
def isQueueEmpty (queue : ProcessQueue) : Bool :=
  queue.size == 0

/-- The function `isQueueFull`. -/
def isQueueFull (queue : ProcessQueue) : Bool :=
  queue.size == MAX_PROCESSES

/-- The function `enqueue`; `%` is the truncating remainder of C. -/
def enqueue (queue : ProcessQueue) (process : Nat) : ProcessQueue :=
  if !isQueueFull queue then
    let rear := Int.tmod (queue.rear + 1) MAX_PROCESSES
    { queue with
      rear := rear
      processes := queue.processes.set rear.toNat process
      size := queue.size + 1 }
  else queue

/-- The function `dequeue`: the removed head (or `none` for `NULL`) and the new queue. -/
def dequeue (queue : ProcessQueue) : Option Nat × ProcessQueue :=
  if !isQueueEmpty queue then
    (some (queue.processes.getD queue.front 0),
     { queue with front := (queue.front + 1) % MAX_PROCESSES, size := queue.size - 1 })
  else (none, queue)

/-- A queue as laid out in static storage before `initQueue` runs on it. -/
def zeroQueue : ProcessQueue :=
  { processes := List.replicate MAX_PROCESSES 0, front := 0, rear := 0, size := 0 }

/-- The `size` slots read from `front`, wrapping modulo the capacity: the order in which
`printQueue` walks the buffer (lines 373-375). -/
def ProcessQueue.contents (queue : ProcessQueue) : List Nat :=
  (List.range queue.size).map
    (fun i => queue.processes.getD ((queue.front + i) % MAX_PROCESSES) 0)

/-- Layout invariant of a queue that `initQueue`, `enqueue` and `dequeue` maintain. -/
structure ProcessQueue.WF (queue : ProcessQueue) : Prop where
  slots : queue.processes.length = MAX_PROCESSES
  front_lt : queue.front < MAX_PROCESSES
  size_le : queue.size ≤ MAX_PROCESSES
  rear_ge : -1 ≤ queue.rear
  rear_eq : (queue.rear + 1) % 10 = ((queue.front + queue.size : Nat) : Int) % 10

/-! ### The bounded FIFO list the queue is compared with -/

/-- One call on a queue. -/
inductive QueueOp where
  | enq (process : Nat)
  | deq
deriving DecidableEq, Repr

/-- Runs a sequence of calls on the circular buffer, collecting what each `dequeue` returns. -/
def runQueueOps : List QueueOp → ProcessQueue → ProcessQueue × List (Option Nat)
  | [], queue => (queue, [])
  | QueueOp.enq p :: ops, queue => runQueueOps ops (enqueue queue p)
  | QueueOp.deq :: ops, queue =>
    let r := runQueueOps ops (dequeue queue).2
    (r.1, (dequeue queue).1 :: r.2)

/-- The bounded FIFO of the specification: `enqueue` appends while fewer than ten elements
are held and is otherwise dropped. -/
def specEnqueue (l : List Nat) (p : Nat) : List Nat :=
  if l.length < 10 then l ++ [p] else l

/-- The bounded FIFO of the specification: `dequeue` removes and returns the first element,
and returns the empty result on the empty list. -/
def specDequeue (l : List Nat) : Option Nat × List Nat :=
  match l with
  | [] => (none, [])
  | p :: rest => (some p, rest)

/-- Runs a sequence of calls on the bounded FIFO list of the specification. -/
def runSpecOps : List QueueOp → List Nat → List Nat × List (Option Nat)
  | [], l => (l, [])
  | QueueOp.enq p :: ops, l => runSpecOps ops (specEnqueue l p)
  | QueueOp.deq :: ops, l =>
    let r := runSpecOps ops (specDequeue l).2
    (r.1, (specDequeue l).1 :: r.2)

/-! ## Text, buffers and the C library calls the interpreter uses -/

/-- A C string, or a `char` buffer that may hold NUL characters. -/
abbrev Text := List Char

/-- The NUL character. -/
def NUL : Char := Char.ofNat 0

/-- The C string held in a buffer: the characters before the first NUL. -/
def cstr (buf : Text) : Text :=
  buf.takeWhile (fun c => c != NUL)

/-- The library call `strtok` (glibc) on buffer `buf`, scanning from the saved offset `pos`
with delimiter set `delim`: the token (or `none` for `NULL`), the buffer after the
delimiter that ends the token has been overwritten with NUL, and the new saved offset. -/
def strtokAt (buf : Text) (pos : Nat) (delim : List Char) : Option Text × Text × Nat :=
  let s := cstr (buf.drop pos)
  let lead := (s.takeWhile (fun c => delim.contains c)).length
  let s1 := s.drop lead
  if s1.isEmpty then (none, buf, pos + lead)
  else
    let tok := s1.takeWhile (fun c => !delim.contains c)
    let stop := pos + lead + tok.length
    if tok.length < s1.length then (some tok, buf.set stop NUL, stop + 1)
    else (some tok, buf, stop)

/-- The offset in `buf` at which the token of `strtokAt buf pos delim` starts. -/
def strtokStart (buf : Text) (pos : Nat) (delim : List Char) : Nat :=
  pos + ((cstr (buf.drop pos)).takeWhile (fun c => delim.contains c)).length

/-- The library call `fgets` with buffer size `size` on the unread part of a stream: the
characters read (through the first newline, at most `size - 1`), or `none` at end of
input, and what is left of the stream. -/
def fgets (size : Nat) (stream : Text) : Option Text × Text :=
  if stream.isEmpty then (none, [])
  else
    let upto := stream.takeWhile (fun c => c != '\n')
    let line := if upto.length < stream.length then upto ++ ['\n'] else upto
    let got := line.take (size - 1)
    (some got, stream.drop got.length)

/-- The statement `s[strcspn(s, "\n")] = '\0'`: cuts the string at its first newline. -/
def stripNewline (s : Text) : Text :=
  s.takeWhile (fun c => c != '\n')

/-- The value an `int` holds after the arithmetic result `x` is stored in it: `x` brought
into the range from -2147483648 to 2147483647 modulo 4294967296. -/
def wrapInt (x : Int) : Int :=
  (x + 2147483648) % 4294967296 - 2147483648

/-- The digit loop of `atoi`. -/
def atoiDigits : Text → Nat → Nat
  | [], acc => acc
  | c :: cs, acc => if c.isDigit then atoiDigits cs (acc * 10 + (c.toNat - 48)) else acc

/-- The conversion of `strtol`: leading white space, an optional sign, decimal digits; a
value outside the range of `long` is replaced by the nearest bound. -/
def strtol (s : Text) : Int :=
  let v : Int :=
    match s.dropWhile (fun c => c == ' ' || (9 ≤ c.toNat && c.toNat ≤ 13)) with
    | '-' :: rest => - (atoiDigits rest 0 : Int)
    | '+' :: rest => (atoiDigits rest 0 : Int)
    | rest => (atoiDigits rest 0 : Int)
  max (-9223372036854775808) (min 9223372036854775807 v)

/-- The library call `atoi` (glibc): the result of `strtol` stored in an `int`. -/
def atoi (s : Text) : Int :=
  wrapInt (strtol s)

/-! ## Processes (lines 21-46) -/

/-- The enum `ProcessState`. -/
inductive ProcessState where
  | READY
  | RUNNING
  | BLOCKED
  | FINISHED
deriving DecidableEq, Repr

/-- The struct `PCB`. -/
structure PCB where
  process_id : Nat
  process_state : ProcessState
  program_counter : Nat
  memory_lower_bound : Nat
  memory_upper_bound : Nat
  cycles_remaining : Int
  waiting_for_resource : Text
deriving DecidableEq, Repr

/-- The struct `Process`: sixty instruction slots, three variable slots `variables` (raw
buffers, here `vars`),
the control block and the arrival time. -/
structure Process where
  instructions : List Text
  vars : List Text
  pcb : PCB
  arrival_time : Int
deriving DecidableEq, Repr

/-- The row `process->instructions[i]` as the code addresses it: rows 0 to 59 are the
instruction slots, and the rows behind them are the variable slots, which follow the
instruction array in the struct (lines 33-36). -/
def Process.row (pr : Process) (i : Nat) : Text :=
  if i < MEMORY_SIZE then pr.instructions.getD i [] else pr.vars.getD (i - MEMORY_SIZE) []

/-- Overwrites the row `process->instructions[i]`. -/
def Process.setRow (pr : Process) (i : Nat) (t : Text) : Process :=
  if i < MEMORY_SIZE then { pr with instructions := pr.instructions.set i t }
  else { pr with vars := pr.vars.set (i - MEMORY_SIZE) t }

instance : Inhabited Process :=
  ⟨{ instructions := [], vars := [],
     pcb := { process_id := 0, process_state := ProcessState.FINISHED, program_counter := 0,
              memory_lower_bound := 0, memory_upper_bound := 0, cycles_remaining := 0,
              waiting_for_resource := [] },
     arrival_time := 0 }⟩

/-! ## Machine state -/

/-- What the interpreter writes to standard output, one event per `printf`. -/
inductive Event where
  /-- Output `Executing instruction [%s] from Process %d at clock cycle %d` (line 293). -/
  | executing (line : Text) (process_id : Nat) (clock : Int)
  /-- The value line of `executePrint` (line 212). -/
  | printed (value : Text)
  /-- Output `Variable '%s' not found.` (line 214); `none` is a `NULL` operand. -/
  | variableNotFound (varname : Option Text)
  /-- Output `Please enter a value for variable %s: ` (line 137). -/
  | enterValue (varname : Option Text)
  /-- Output `Filename variable '%s' not found.` (lines 158, 205). -/
  | filenameNotFound (varname : Option Text)
  /-- Output `Error opening file: %s` (lines 148, 173, 196). -/
  | errorOpeningFile (filename : Text)
  /-- Output `Creating file: %s` (line 169). -/
  | creatingFile (filename : Text)
  /-- Output `Error: Invalid filename or data.` (line 186). -/
  | invalidFilenameOrData
  /-- The lines streamed by `executeReadFile` (lines 200-202). -/
  | fileContents (data : Text)
  /-- The integers printed by `executePrintFromTo`, then the newline (lines 281-284). -/
  | range (values : List Int)
  /-- Output `Error: Variables not found.` (line 286). -/
  | variablesNotFound
  /-- Output `Unknown instruction: %s` (line 323). -/
  | unknownInstruction (instruction : Text)
  /-- Output `Process %d has arrived at clock cycle %d` (line 400). -/
  | arrived (process_id : Nat) (clock : Int)
  /-- Output `Process %d has finished execution.` (line 520). -/
  | finished (process_id : Nat)
  /-- Output `All processes have finished execution.` (line 560). -/
  | allFinished
deriving DecidableEq, Repr

/-- Why the program stopped early. -/
inductive Fault where
  /-- The call `exit(EXIT_FAILURE)` after a failed file operation. -/
  | ioAbort
  /-- A `NULL` token or pointer was dereferenced. -/
  | nullDeref
deriving DecidableEq, Repr

/-- The global variables of the program together with the heap of process records, the
unread standard input, the files, and the output written so far. -/
structure OS where
  file_mutex : Nat
  user_input_mutex : Nat
  screen_output_mutex : Nat
  readyQueue : ProcessQueue
  blockedQueue : ProcessQueue
  storageQueue : ProcessQueue
  clockCycles : Int
  heap : List Process
  stdin : Text
  files : List (Text × Text)
  unwritable : List Text
  out : List Event
  fault : Option Fault
deriving DecidableEq, Repr

/-- Reads the record behind a process pointer. -/
def OS.proc (s : OS) (p : Nat) : Process :=
  s.heap.getD p default

/-- Writes the record behind a process pointer. -/
def OS.setProc (s : OS) (p : Nat) (pr : Process) : OS :=
  { s with heap := s.heap.set p pr }

/-- Appends one event to standard output. -/
def OS.emit (s : OS) (e : Event) : OS :=
  { s with out := s.out ++ [e] }

/-- Sets `process->pcb.process_state`. -/
def Process.setState (pr : Process) (st : ProcessState) : Process :=
  { pr with pcb := { pr.pcb with process_state := st } }

/-! ## Variables (lines 111-133) -/

/-- The loop of `storeVariables` from slot `i` with `n` slots to go: the first slot that is
empty or whose string starts with `variable` (the `strncmp` over `strlen(variable)`
characters) is overwritten with `variable=value`, cut to the buffer size by `snprintf`. -/
def storeVariablesLoop (varname value : Text) (vars : List Text) : Nat → Nat → List Text
  | 0, _ => vars
  | n + 1, i =>
    if (cstr (vars.getD i [])).isEmpty || varname.isPrefixOf (cstr (vars.getD i []))
    then vars.set i ((varname ++ '=' :: value).take (MAX_LINE_LENGTH - 1))
    else storeVariablesLoop varname value vars n (i + 1)

/-- The function `storeVariables`. -/
def storeVariables (process : Process) (varname value : Text) : Process :=
  { process with
    vars :=
      storeVariablesLoop varname value process.vars MAX_VARIABLES_PER_PROCESS 0 }

/-- The loop of `retrieveVariable` from slot `i` with `n` slots to go.  Every non-empty slot
visited is cut in place by `strtok` at its first `=`; on a name match the value token is
cut as well.  The result is the returned pointer's string (`none` for `NULL`), the slots
afterwards, and whether `strcmp` was handed a `NULL`. -/
def retrieveVariableLoop (variable_name : Option Text) :
    Nat → Nat → List Text → Option Text × List Text × Bool
  | 0, _, vars => (none, vars, false)
  | n + 1, i, vars =>
    if !(cstr (vars.getD i [])).isEmpty then
      match strtokAt (vars.getD i []) 0 ['='], variable_name with
      | (some var, buf, save), some name =>
        if var = name then
          ((strtokAt buf save ['=']).1, vars.set i (strtokAt buf save ['=']).2.1, false)
        else retrieveVariableLoop variable_name n (i + 1) (vars.set i buf)
      | (_, buf, _), _ => (none, vars.set i buf, true)
    else retrieveVariableLoop variable_name n (i + 1) vars

/-- The function `retrieveVariable` on the process behind pointer `p`. -/
def retrieveVariable (s : OS) (p : Nat) (variable_name : Option Text) : Option Text × OS :=
  let r := retrieveVariableLoop variable_name MAX_VARIABLES_PER_PROCESS 0 (s.proc p).vars
  let s1 := s.setProc p { s.proc p with vars := r.2.1 }
  (r.1, if r.2.2 then { s1 with fault := some Fault.nullDeref } else s1)

/-! ## Instruction handlers (lines 135-288) -/

/-- The tail of `executeAssign`: `storeVariables(process, variable, value)`. -/
def assignStore (s : OS) (p : Nat) (varname : Option Text) (value : Text) : OS :=
  match varname with
  | some v => s.setProc p (storeVariables (s.proc p) v value)
  | none => { s with fault := some Fault.nullDeref }

/-- The characters that lines 138-139 leave behind the pointer `value`: what `fgets` has
read, the closing NUL, and a NUL over the first newline. -/
def inputBytes (got : Text) : Text :=
  (got ++ [NUL]).set ((got ++ [NUL]).takeWhile (fun c => c != '\n' && c != NUL)).length NUL

/-- The effect on instruction memory of writing `bytes` through the pointer `value` of
`executeAssign` (lines 138-139 and 153).  With `valueAt = some off` the pointer is the
operand token `off` characters into the current instruction slot; `none` is the local
buffer `combinedValue`, which has room for them.  A slot holds `MAX_LINE_LENGTH`
characters, so the characters from position `MAX_LINE_LENGTH - off` on land at the start
of the next row of the struct: the next instruction slot, or the first variable slot
behind the last instruction slot.  What is written inside the current slot behind the
cut operand is not recorded: nothing reads it before the slot is cleared at the end of
the turn. -/
def spillValue (s : OS) (p : Nat) (valueAt : Option Nat) (bytes : Text) : OS :=
  match valueAt with
  | none => s
  | some off =>
    let pr := s.proc p
    let next := pr.pcb.program_counter + 1
    let spill := bytes.drop (MAX_LINE_LENGTH - off)
    if spill.isEmpty then s
    else s.setProc p (pr.setRow next (spill ++ (pr.row next).drop spill.length))

/-- The function `executeAssign`; `valueAt` locates the pointer `value` (see `spillValue`). -/
def executeAssign (s : OS) (p : Nat) (varname value : Option Text) (valueAt : Option Nat) :
    OS :=
  match value with
  | none => { s with fault := some Fault.nullDeref }
  | some value =>
    if value = "input".toList then
      let s1 := s.emit (Event.enterValue varname)
      match fgets MAX_LINE_LENGTH s1.stdin with
      | (some got, rest) =>
        assignStore (spillValue { s1 with stdin := rest } p valueAt (inputBytes got)) p varname
          (stripNewline got)
      | (none, rest) => assignStore { s1 with stdin := rest } p varname (stripNewline value)
    else if "readFile".toList.isPrefixOf value then
      let fileVar := value.drop 9
      let r := retrieveVariable s p (some fileVar)
      if r.2.fault.isSome then r.2
      else
        match r.1 with
        | some filename =>
          match r.2.files.lookup filename with
          | none => { r.2.emit (Event.errorOpeningFile filename) with fault := some Fault.ioAbort }
          | some content =>
            match fgets MAX_LINE_LENGTH content with
            | (some fileData, _) =>
              assignStore (spillValue r.2 p valueAt (stripNewline fileData ++ [NUL])) p varname
                (stripNewline fileData)
            | (none, _) => assignStore r.2 p varname value
        | none => r.2.emit (Event.filenameNotFound (some fileVar))
    else assignStore s p varname value

/-- The function `executeWriteFile`. -/
def executeWriteFile (s : OS) (p : Nat) (filename_variable data_variable : Option Text) : OS :=
  let r1 := retrieveVariable s p filename_variable
  if r1.2.fault.isSome then r1.2
  else
    let r2 := retrieveVariable r1.2 p data_variable
    if r2.2.fault.isSome then r2.2
    else
      match r1.1, r2.1 with
      | some filename, some data =>
        let s1 := r2.2.emit (Event.creatingFile filename)
        if s1.unwritable.contains filename then
          { s1.emit (Event.errorOpeningFile filename) with fault := some Fault.ioAbort }
        else
          { s1 with files := (filename, data) :: s1.files.filter (fun f => f.1 != filename) }
      | _, _ => r2.2.emit Event.invalidFilenameOrData

/-- The function `executeReadFile`. -/
def executeReadFile (s : OS) (p : Nat) (filename_variable : Option Text) : OS :=
  let r := retrieveVariable s p filename_variable
  if r.2.fault.isSome then r.2
  else
    match r.1 with
    | some filename =>
      match r.2.files.lookup filename with
      | none => { r.2.emit (Event.errorOpeningFile filename) with fault := some Fault.ioAbort }
      | some content => r.2.emit (Event.fileContents content)
    | none => r.2.emit (Event.filenameNotFound filename_variable)

/-- The function `executePrint`. -/
def executePrint (s : OS) (p : Nat) (varname : Option Text) : OS :=
  let r := retrieveVariable s p varname
  if r.2.fault.isSome then r.2
  else
    match r.1 with
    | some value => r.2.emit (Event.printed value)
    | none => r.2.emit (Event.variableNotFound varname)

/-- The function `blockProcess`. -/
def blockProcess (s : OS) (p : Nat) (resource : Text) : OS :=
  let pr := s.proc p
  let s1 := s.setProc p
    { pr with pcb := { pr.pcb with process_state := ProcessState.BLOCKED,
                                   waiting_for_resource := resource } }
  { s1 with blockedQueue := enqueue s1.blockedQueue p }

/-- The loop of `unblockProcesses` with `n` iterations to go. -/
def unblockLoop (resource : Text) : Nat → OS → OS
  | 0, s => s
  | n + 1, s =>
    match (dequeue s.blockedQueue).1 with
    | none => { s with fault := some Fault.nullDeref }
    | some p =>
      let s1 := { s with blockedQueue := (dequeue s.blockedQueue).2 }
      if (s1.proc p).pcb.waiting_for_resource = resource then
        let s2 := s1.setProc p ((s1.proc p).setState ProcessState.READY)
        unblockLoop resource n { s2 with readyQueue := enqueue s2.readyQueue p }
      else
        unblockLoop resource n { s1 with blockedQueue := enqueue s1.blockedQueue p }

/-- The function `unblockProcesses`. -/
def unblockProcesses (s : OS) (resource : Text) : OS :=
  unblockLoop resource s.blockedQueue.size s

/-- The function `executeSemWait`. -/
def executeSemWait (s : OS) (p : Nat) (resource : Option Text) : OS :=
  match resource with
  | none => { s with fault := some Fault.nullDeref }
  | some resource =>
    if resource = "userInput".toList then
      if s.user_input_mutex = 0 then blockProcess s p resource
      else { s with user_input_mutex := 0 }
    else if resource = "file".toList then
      if s.file_mutex = 0 then blockProcess s p resource
      else { s with file_mutex := 0 }
    else if resource = "userOutput".toList then
      if s.screen_output_mutex = 0 then blockProcess s p resource
      else { s with screen_output_mutex := 0 }
    else s

/-- The function `executeSemSignal`. -/
def executeSemSignal (s : OS) (resource : Option Text) : OS :=
  match resource with
  | none => { s with fault := some Fault.nullDeref }
  | some resource =>
    let s1 :=
      if resource = "userInput".toList then { s with user_input_mutex := 1 }
      else if resource = "file".toList then { s with file_mutex := 1 }
      else if resource = "userOutput".toList then { s with screen_output_mutex := 1 }
      else s
    unblockProcesses s1 resource

/-- The values of `i` in `for (int i = start; i <= end; i++)` (for `end` = 2147483647 the
loop of the source does not end; the list stops there). -/
def intRange (start stop : Int) : List Int :=
  (List.range (stop - start + 1).toNat).map (fun k => start + (k : Int))

/-- The function `executePrintFromTo`. -/
def executePrintFromTo (s : OS) (p : Nat) (startVar endVar : Option Text) : OS :=
  let r1 := retrieveVariable s p startVar
  if r1.2.fault.isSome then r1.2
  else
    let r2 := retrieveVariable r1.2 p endVar
    if r2.2.fault.isSome then r2.2
    else
      match r1.1, r2.1 with
      | some startStr, some endStr => r2.2.emit (Event.range (intRange (atoi startStr) (atoi endStr)))
      | _, _ => r2.2.emit Event.variablesNotFound

/-! ## The interpreter turn (lines 290-346) -/

/-- The four `strtok` calls of `executeProcess` on the instruction line: the verb, up to
three operands, and the line buffer as the calls leave it. -/
structure Tokens where
  instruction : Option Text
  arg1 : Option Text
  arg2 : Option Text
  arg3 : Option Text
  line : Text
  arg2At : Nat
deriving DecidableEq, Repr

/-- Tokenises an instruction line as lines 296-299 do; `arg2At` is the offset of the token
`arg2` in the line, the pointer being `line + arg2At`. -/
def tokenize (line : Text) : Tokens :=
  let t0 := strtokAt line 0 [' ', '\n']
  let t1 := strtokAt t0.2.1 t0.2.2 [' ', '\n']
  let t2 := strtokAt t1.2.1 t1.2.2 [' ', '\n']
  let t3 := strtokAt t2.2.1 t2.2.2 ['\n']
  { instruction := t0.1, arg1 := t1.1, arg2 := t2.1, arg3 := t3.1, line := t3.2.1,
    arg2At := strtokStart t1.2.1 t1.2.2 [' ', '\n'] }

/-- The dispatch on the verb (lines 301-324). -/
def dispatch (s : OS) (p : Nat) (t : Tokens) : OS :=
  match t.instruction with
  | none => { s with fault := some Fault.nullDeref }
  | some instruction =>
    if instruction = "print".toList then executePrint s p t.arg1
    else if instruction = "assign".toList then
      match t.arg3 with
      | some arg3 =>
        executeAssign s p t.arg1
          (some (((t.arg2.getD "(null)".toList) ++ ' ' :: arg3).take (MAX_LINE_LENGTH - 1)))
          none
      | none => executeAssign s p t.arg1 t.arg2 (some t.arg2At)
    else if instruction = "writeFile".toList then executeWriteFile s p t.arg1 t.arg2
    else if instruction = "readFile".toList then executeReadFile s p t.arg1
    else if instruction = "printFromTo".toList then executePrintFromTo s p t.arg1 t.arg2
    else if instruction = "semWait".toList then executeSemWait s p t.arg1
    else if instruction = "semSignal".toList then executeSemSignal s t.arg1
    else s.emit (Event.unknownInstruction instruction)

/-- The end of the turn (lines 326-345): clear the executed row, step the program counter,
charge the quantum, and settle the state of a process that is still `RUNNING`. -/
def finishTurn (s : OS) (p : Nat) : OS :=
  let pr := s.proc p
  let pc := pr.pcb.program_counter
  let cleared : Process := if (cstr (pr.row pc)).length > 0 then pr.setRow pc [] else pr
  let pcb1 : PCB :=
    { pr.pcb with
      program_counter := pc + 1
      cycles_remaining := pr.pcb.cycles_remaining - 1 }
  let pr1 : Process := { cleared with pcb := pcb1 }
  if pcb1.process_state = ProcessState.RUNNING then
    if pcb1.program_counter ≥ MEMORY_SIZE
        || (cstr (cleared.row pcb1.program_counter)).length = 0 then
      s.setProc p (pr1.setState ProcessState.FINISHED)
    else if pcb1.cycles_remaining = 0 then
      let s1 := s.setProc p
        { pr1 with pcb := { pcb1 with process_state := ProcessState.READY,
                                      cycles_remaining := TIME_QUANTUM } }
      { s1 with readyQueue := enqueue s1.readyQueue p }
    else s.setProc p (pr1.setState ProcessState.READY)
  else s.setProc p pr1

/-- The start of the turn (lines 291-299): the process is marked `RUNNING`, the line to
execute (row `program_counter` of its instruction memory) is announced, and the `strtok`
calls cut it in place. -/
def beginTurn (s : OS) (p : Nat) : OS :=
  let pr := s.proc p
  let line := pr.row pr.pcb.program_counter
  let s1 := s.setProc p
    ((pr.setState ProcessState.RUNNING).setRow pr.pcb.program_counter (tokenize line).line)
  s1.emit (Event.executing line pr.pcb.process_id s.clockCycles)

/-- The function `executeProcess` on the process behind pointer `p`. -/
def executeProcess (s : OS) (p : Nat) : OS :=
  let t := tokenize ((s.proc p).row (s.proc p).pcb.program_counter)
  let s3 := dispatch (beginTurn s p) p t
  if s3.fault.isSome then s3 else finishTurn s3 p

/-! ## The scheduling loop of `main` (lines 410-562) -/

/-- The function `enqueueProcessToReadyQueue`. -/
def enqueueProcessToReadyQueue (s : OS) (p : Nat) : OS :=
  if !isQueueFull s.readyQueue then
    { s with readyQueue := enqueue s.readyQueue p }.emit
      (Event.arrived (s.proc p).pcb.process_id s.clockCycles)
  else s

/-- The arrival loops (lines 461-466 and 487-492) from index `i` with `n` processes to go:
a process whose arrival time is the current clock value is put in the storage unit and
in the ready queue. -/
def checkArrivalsLoop (arrival_times : List Int) : Nat → Nat → OS → OS
  | 0, _, s => s
  | n + 1, i, s =>
    if arrival_times.getD i 0 = s.clockCycles then
      checkArrivalsLoop arrival_times n (i + 1)
        (enqueueProcessToReadyQueue { s with storageQueue := enqueue s.storageQueue i } i)
    else checkArrivalsLoop arrival_times n (i + 1) s

/-- The arrival check over all `process_count` processes. -/
def checkArrivals (arrival_times : List Int) (s : OS) : OS :=
  checkArrivalsLoop arrival_times arrival_times.length 0 s

/-- The first loop of the storage sweep (lines 500-506) with `n` iterations to go: every
storage entry moves to `tempQueue`, and the entry with the executed process's id has its
row `program_counter - 1` cleared. -/
def sweepOutLoop (executedProcess : Nat) : Nat → OS → ProcessQueue → OS × ProcessQueue
  | 0, s, tempQueue => (s, tempQueue)
  | n + 1, s, tempQueue =>
    match (dequeue s.storageQueue).1 with
    | none => ({ s with fault := some Fault.nullDeref }, tempQueue)
    | some sp =>
      let s1 := { s with storageQueue := (dequeue s.storageQueue).2 }
      let s2 :=
        if (s1.proc sp).pcb.process_id = (s1.proc executedProcess).pcb.process_id then
          s1.setProc sp
            ((s1.proc sp).setRow ((s1.proc executedProcess).pcb.program_counter - 1) [])
        else s1
      sweepOutLoop executedProcess n s2 (enqueue tempQueue sp)

/-- The transfer loop `for (k = 0; k < size; k++) enqueue(&storageQueue, dequeue(&tempQueue))`
(lines 509-511) with `n` iterations to go.  A `NULL` taken from an empty `tempQueue` is
recorded as a fault instead of being stored. -/
def sweepBackLoop : Nat → OS → ProcessQueue → OS
  | 0, s, _ => s
  | n + 1, s, tempQueue =>
    match (dequeue tempQueue).1 with
    | none => { s with fault := some Fault.nullDeref }
    | some sp =>
      sweepBackLoop n { s with storageQueue := enqueue s.storageQueue sp } (dequeue tempQueue).2

/-- The storage sweep after a turn (lines 495-514). -/
def sweepStorage (s : OS) (executedProcess : Nat) : OS :=
  let size := s.storageQueue.size
  let r := sweepOutLoop executedProcess size s (initQueue zeroQueue)
  if r.1.fault.isSome then r.1 else sweepBackLoop size r.1 r.2

/-- The first loop of the removal of a finished process (lines 526-533) with `n` iterations
to go: every storage entry whose id differs from the finished one moves to `tempQueue`. -/
def removeOutLoop (process : Nat) : Nat → OS → ProcessQueue → OS × ProcessQueue
  | 0, s, tempQueue => (s, tempQueue)
  | n + 1, s, tempQueue =>
    match (dequeue s.storageQueue).1 with
    | none => ({ s with fault := some Fault.nullDeref }, tempQueue)
    | some sp =>
      let s1 := { s with storageQueue := (dequeue s.storageQueue).2 }
      if (s1.proc sp).pcb.process_id ≠ (s1.proc process).pcb.process_id then
        removeOutLoop process n s1 (enqueue tempQueue sp)
      else removeOutLoop process n s1 tempQueue

/-- The transfer loop `for (k = 0; k < tempQueue.size; k++)` (lines 536-538), whose bound
is read again on every iteration; `fuel` bounds the number of iterations and
`tempQueue.size` is always enough. -/
def removeBackLoop : Nat → Nat → OS → ProcessQueue → OS
  | 0, _, s, _ => s
  | fuel + 1, k, s, tempQueue =>
    if k < tempQueue.size then
      match (dequeue tempQueue).1 with
      | none => { s with fault := some Fault.nullDeref }
      | some sp =>
        removeBackLoop fuel (k + 1) { s with storageQueue := enqueue s.storageQueue sp }
          (dequeue tempQueue).2
    else s

/-- The removal of a finished process from the storage unit (lines 520-538). -/
def removeFinished (s : OS) (process : Nat) : OS :=
  let s0 := s.emit (Event.finished (s.proc process).pcb.process_id)
  let r := removeOutLoop process s0.storageQueue.size s0 (initQueue zeroQueue)
  if r.1.fault.isSome then r.1 else removeBackLoop r.2.size 0 r.1 r.2

/-- The routing of the executed process by its state (lines 516-540). -/
def route (s : OS) (process : Nat) : OS :=
  if (s.proc process).pcb.process_state = ProcessState.READY then
    { s with readyQueue := enqueue s.readyQueue process }
  else if (s.proc process).pcb.process_state = ProcessState.BLOCKED
      || (s.proc process).pcb.process_state = ProcessState.FINISHED then
    if (s.proc process).pcb.process_state = ProcessState.FINISHED then removeFinished s process
    else s
  else s

/-- Where control stands in `main`. -/
inductive Loc where
  /-- At the top of the body of `while (true)` (line 458). -/
  | outerHead
  /-- At the test of `while (!isQueueEmpty(&readyQueue))` (line 474). -/
  | innerHead
  /-- Behind the `break` of line 551. -/
  | exited
deriving DecidableEq, Repr

/-- The state of `main` in its loop: the globals, the `arrival_times` array, the flag
`anyProcessActive` and the program point. -/
structure Sched where
  os : OS
  arrival_times : List Int
  anyProcessActive : Bool
  loc : Loc
deriving DecidableEq, Repr

/-- One iteration of the inner loop body (lines 479-541), the ready queue being non-empty. -/
def innerBody (m : Sched) : Sched :=
  match (dequeue m.os.readyQueue).1 with
  | none => { m with os := { m.os with fault := some Fault.nullDeref } }
  | some process =>
    let s := { m.os with readyQueue := (dequeue m.os.readyQueue).2 }
    if (s.proc process).pcb.process_state = ProcessState.READY then
      let s1 := executeProcess s process
      if s1.fault.isSome then { m with os := s1, anyProcessActive := true }
      else
        let s2 := { s1 with clockCycles := wrapInt (s1.clockCycles + 1) }
        let s3 := checkArrivals m.arrival_times s2
        let s4 := sweepStorage s3 process
        if s4.fault.isSome then { m with os := s4, anyProcessActive := true }
        else { m with os := route s4 process, anyProcessActive := true }
    else { m with os := s }

/-- One step of `main`: the head of the outer loop (reset the flag, admit arrivals), one
iteration of the inner loop, or the tail of the outer loop (exit test, idle tick).  A
faulted or exited program does not move. -/
def mainStep (m : Sched) : Sched :=
  if m.os.fault.isSome then m
  else
    match m.loc with
    | Loc.outerHead =>
      { m with anyProcessActive := false, os := checkArrivals m.arrival_times m.os,
               loc := Loc.innerHead }
    | Loc.innerHead =>
      if !isQueueEmpty m.os.readyQueue then innerBody m
      else if !m.anyProcessActive && isQueueEmpty m.os.blockedQueue then
        { m with os := m.os.emit Event.allFinished, loc := Loc.exited }
      else if !m.anyProcessActive then
        { m with os := { m.os with clockCycles := wrapInt (m.os.clockCycles + 1) },
                 loc := Loc.outerHead }
      else { m with loc := Loc.outerHead }
    | Loc.exited => m

/-- Runs `n` steps of `main`. -/
def run : Nat → Sched → Sched
  | 0, m => m
  | n + 1, m => run n (mainStep m)

/-- The process record built by lines 436-448 for the `i`-th argument pair, its program
file holding the given lines (as `fgets` returns them). -/
def newProcess (i : Nat) (arrival_time : Int) (program : List Text) : Process :=
  { instructions :=
      (program ++ List.replicate (MEMORY_SIZE - program.length) []).take MEMORY_SIZE
    vars := List.replicate MAX_VARIABLES_PER_PROCESS []
    pcb := { process_id := i + 1, process_state := ProcessState.READY, program_counter := 0,
             memory_lower_bound := 0, memory_upper_bound := MEMORY_SIZE - 1,
             cycles_remaining := TIME_QUANTUM, waiting_for_resource := [] }
    arrival_time := arrival_time }

/-- The state in which `main` enters its loop for the given (arrival time, program) pairs,
standard input and files; an arrival time is the `int` that `atoi` returned for it. -/
def boot (args : List (Int × List Text)) (stdin : Text) (files : List (Text × Text))
    (unwritable : List Text) : Sched :=
  { os :=
      { file_mutex := 1, user_input_mutex := 1, screen_output_mutex := 1
        readyQueue := initQueue zeroQueue
        blockedQueue := initQueue zeroQueue
        storageQueue := initQueue zeroQueue
        clockCycles := 0
        heap := (List.range args.length).map
          (fun i => newProcess i (args.getD i (0, [])).1 (args.getD i (0, [])).2)
        stdin := stdin, files := files, unwritable := unwritable, out := [], fault := none }
    arrival_times := args.map (fun a => a.1)
    anyProcessActive := false
    loc := Loc.outerHead }

/-- A program line as `fgets` reads it from the program file: the text and its newline. -/
def ln (text : String) : Text :=
  text.toList ++ ['\n']

/-- The process ids of the `Executing instruction` lines of the output, in order: which
process took each interpreter turn. -/
def executions : List Event → List Nat
  | [] => []
  | Event.executing _ pid _ :: rest => pid :: executions rest
  | _ :: rest => executions rest

/-! ## Vocabulary of the properties -/

/-- The mutex variable that `executeSemWait` / `executeSemSignal` select for a resource
name (`0` is locked), or `none` for a name they do not recognise. -/
def mutexOf (s : OS) (resource : Text) : Option Nat :=
  if resource = "userInput".toList then some s.user_input_mutex
  else if resource = "file".toList then some s.file_mutex
  else if resource = "userOutput".toList then some s.screen_output_mutex
  else none

/-- Reads the executed lines of the output in order and tells whether the process with
the given id is behind a `semWait resource` that it has not followed with a
`semSignal resource`. -/
def behindWait (process_id : Nat) (resource : Text) : List Event → Bool → Bool
  | [], acc => acc
  | Event.executing line pid _ :: rest, acc =>
    if pid = process_id ∧ (tokenize line).instruction = some "semWait".toList
        ∧ (tokenize line).arg1 = some resource then
      behindWait process_id resource rest true
    else if pid = process_id ∧ (tokenize line).instruction = some "semSignal".toList
        ∧ (tokenize line).arg1 = some resource then
      behindWait process_id resource rest false
    else behindWait process_id resource rest acc
  | _ :: rest, acc => behindWait process_id resource rest acc

/-- A process holds a resource: it has got past a `semWait` on it, is not `BLOCKED`, and
has not executed a `semSignal` on it since. -/
def holds (s : OS) (p : Nat) (resource : Text) : Bool :=
  behindWait (s.proc p).pcb.process_id resource s.out false
    && (s.proc p).pcb.process_state != ProcessState.BLOCKED

/-- The waiters of a resource in the blocked queue, in queue order. -/
def waiters (s : OS) (resource : Text) : List Nat :=
  s.blockedQueue.contents.filter
    (fun p => decide ((s.proc p).pcb.waiting_for_resource = resource))

/-- The blocked processes that wait for another resource, in queue order. -/
def otherWaiters (s : OS) (resource : Text) : List Nat :=
  s.blockedQueue.contents.filter
    (fun p => !decide ((s.proc p).pcb.waiting_for_resource = resource))

/-! ## Scenarios -/

/-- The concrete scenario of the specification: A = [assign x 5, print x], B = [print y],
both arriving at tick 0. -/
def scenarioAB : Sched :=
  boot [(0, [ln "assign x 5", ln "print x"]), (0, [ln "print y"])] [] [] []

/-- Two processes of three non-blocking instructions each, both arriving at tick 0. -/
def scenarioFair : Sched :=
  boot [(0, [ln "print x", ln "print x", ln "print x"]),
        (0, [ln "print x", ln "print x", ln "print x"])] [] [] []

/-- Two processes contending for `file`, both arriving at tick 0: the first takes the lock,
releases it and takes it again; the second waits for it once. -/
def scenarioMutex : Sched :=
  boot [(0, [ln "semWait file", ln "semSignal file", ln "semWait file", ln "print x"]),
        (0, [ln "semWait file", ln "print x", ln "print x", ln "print x"])] [] [] []

/-- One process with a one-line program that arrives at tick 1. -/
def scenarioLate : Sched :=
  boot [(1, [ln "print x"])] [] [] []

/-- The deadlock scenario of the specification, both processes arriving at tick 0. -/
def scenarioDeadlock : Sched :=
  boot [(0, [ln "semWait file", ln "semWait userInput", ln "semSignal userInput",
             ln "semSignal file"]),
        (0, [ln "semWait userInput", ln "semWait file", ln "semSignal file",
             ln "semSignal userInput"])] [] [] []

/-- Three processes arriving at tick 0: the first takes `file`, runs eight prints and then
releases it; the other two wait for `file`. -/
def scenarioHerd : Sched :=
  boot [(0, [ln "semWait file"] ++ List.replicate 8 (ln "print x")
              ++ [ln "semSignal file", ln "print x"]),
        (0, [ln "semWait file", ln "print x"]),
        (0, [ln "semWait file", ln "print x"])] [] [] []

/-- The state in which `executeProcess` calls `executeSemSignal` in the turn that follows
twelve steps of `scenarioHerd`: the head of the ready queue has been dequeued and its turn
has begun. -/
def herdSignalState : OS :=
  beginTurn
    { (run 12 scenarioHerd).os with
      readyQueue := (dequeue (run 12 scenarioHerd).os.readyQueue).2 } 0

/-- The state in which `main` calls `executeProcess` on the second process of
`scenarioMutex` (pointer 1) after two steps: it has just been dequeued, its current
instruction is `semWait file`, and `file` is locked by the first process. -/
def mutexTurnState : OS :=
  { (run 2 scenarioMutex).os with
    readyQueue := (dequeue (run 2 scenarioMutex).os.readyQueue).2 }

/-! ## Further scenarios -/

/-- Three processes arriving at tick 0; the first has a one-line program and finishes on its
first turn while the other two are still in the storage unit. -/
def scenarioStorage : Sched :=
  boot [(0, [ln "print x"]), (0, [ln "print x", ln "print x"]),
        (0, [ln "print x", ln "print x"])] [] [] []

/-- The state in which `main` routes the first process of `scenarioStorage` after its turn:
it is `FINISHED` and the storage unit holds the three processes. -/
def storageRouteState : OS :=
  sweepStorage
    (checkArrivals (run 1 scenarioStorage).arrival_times
      { executeProcess
          { (run 1 scenarioStorage).os with
            readyQueue := (dequeue (run 1 scenarioStorage).os.readyQueue).2 } 0 with
        clockCycles := 1 }) 0

/-- One process that assigns x and prints it twice. -/
def scenarioPrintTwice : Sched :=
  boot [(0, [ln "assign x 5", ln "print x", ln "print x"])] [] [] []

/-- One process that assigns xy, then x, then prints xy. -/
def scenarioShadow : Sched :=
  boot [(0, [ln "assign xy 3", ln "assign x 1", ln "print xy"])] [] [] []

/-- One process that assigns a = 1 and b = 3 and prints the range from b to b. -/
def scenarioRangeSame : Sched :=
  boot [(0, [ln "assign a 1", ln "assign b 3", ln "printFromTo b b"])] [] [] []

/-- One process that assigns a = 3 (first slot) and b = 1 (second slot) and prints the range
from b to a. -/
def scenarioRangeOrder : Sched :=
  boot [(0, [ln "assign a 3", ln "assign b 1", ln "printFromTo b a"])] [] [] []

/-- Three processes arriving at tick 0: the first takes `file` and finishes without
releasing it; the second runs 59 prints and then, in its last slot, waits for `file`; the
third runs 59 prints and then signals `file`. -/
def scenarioLastSlot : Sched :=
  boot [(0, [ln "semWait file"]),
        (0, List.replicate 59 (ln "print x") ++ [ln "semWait file"]),
        (0, List.replicate 59 (ln "print x") ++ [ln "semSignal file"])] [] [] []

/-- One process whose first line has a verb outside the instruction set. -/
def scenarioUnknownVerb : Sched :=
  boot [(0, [ln "jump 3", ln "print x"])] [] [] []

/-- One process that reads a value from standard input and then prints it; the input line
has 99 characters `a` before its newline. -/
def scenarioLongInput : Sched :=
  boot [(0, [ln "assign x input", ln "print x"])] (List.replicate 99 'a' ++ ['\n']) [] []

/-- The state in which `main` calls `executeProcess` on the process of `scenarioLongInput`
(pointer 0) for its first turn: it has just been dequeued. -/
def longInputTurnState : OS :=
  { (run 1 scenarioLongInput).os with
    readyQueue := (dequeue (run 1 scenarioLongInput).os.readyQueue).2 }

/-- Two processes arriving at tick 0: the first takes `file` and releases it in its next
turn; the second waits for `file`, is woken, and prints twice. -/
def scenarioQuantum : Sched :=
  boot [(0, [ln "semWait file", ln "semSignal file"]),
        (0, [ln "semWait file", ln "print x", ln "print x"])] [] [] []

/-- Three processes arriving at tick 0, as `scenarioLastSlot`, but the second one fills its
first 59 slots with `assign x 5`, so that its first variable slot holds `x=5` when it
blocks in slot 59. -/
def scenarioLastSlotVar : Sched :=
  boot [(0, [ln "semWait file"]),
        (0, List.replicate 59 (ln "assign x 5") ++ [ln "semWait file"]),
        (0, List.replicate 59 (ln "print x") ++ [ln "semSignal file"])] [] [] []

/-- The state in which `main` calls `executeProcess` on the second process of
`scenarioLastSlotVar` (pointer 1) after 136 steps: it has just been dequeued, it is
`READY` and its program counter is 60. -/
def lastSlotVarTurnState : OS :=
  { (run 136 scenarioLastSlotVar).os with
    readyQueue := (dequeue (run 136 scenarioLastSlotVar).os.readyQueue).2 }

/-- Three processes arriving at tick 0: the first prints and finishes, the other two are
the processes of `scenarioDeadlock`. -/
def scenarioFinishedDeadlock : Sched :=
  boot [(0, [ln "print x"]),
        (0, [ln "semWait file", ln "semWait userInput", ln "semSignal userInput",
             ln "semSignal file"]),
        (0, [ln "semWait userInput", ln "semWait file", ln "semSignal file",
             ln "semSignal userInput"])] [] [] []

/-! ## The scheduling view of a state and its invariant -/

/-- The three resource names that `executeSemWait` and `executeSemSignal` recognise. -/
def Recognized (r : Text) : Prop :=
  r = "userInput".toList ∨ r = "file".toList ∨ r = "userOutput".toList

/-- The part of the state that scheduling depends on: the ready and blocked queues, the
clock, the number of process records, the control block of every process, and the ids of
the processes that have taken a turn. -/
structure View where
  readyQueue : ProcessQueue
  blockedQueue : ProcessQueue
  clockCycles : Int
  count : Nat
  pcb : Nat → PCB
  execs : List Nat

/-- The scheduling view of a state. -/
def OS.view (s : OS) : View :=
  { readyQueue := s.readyQueue, blockedQueue := s.blockedQueue, clockCycles := s.clockCycles,
    count := s.heap.length, pcb := fun q => (s.proc q).pcb, execs := executions s.out }

/-- The view after the control block of process `p` has been overwritten (nothing happens
when `p` is not a live pointer). -/
def View.setPcb (v : View) (p : Nat) (pcb : PCB) : View :=
  { v with pcb := fun q => if q = p ∧ p < v.count then pcb else v.pcb q }

/-- Invariant of the scheduler, for the arrival times `a`: both queues are well laid out;
every entry of the blocked queue is a process that is `BLOCKED` on one of the three
resource names; the process behind pointer `q` has id `q + 1`; there is one arrival time
per process.  Nothing in it depends on the value of the clock. -/
structure View.Good (a : List Int) (v : View) : Prop where
  blocked_wf : v.blockedQueue.WF
  ready_wf : v.readyQueue.WF
  blocked_ok : ∀ q ∈ v.blockedQueue.contents,
    (v.pcb q).process_state = ProcessState.BLOCKED ∧
    Recognized (v.pcb q).waiting_for_resource
  pid_ok : ∀ q, q < v.count → (v.pcb q).process_id = q + 1
  count_ok : a.length = v.count

/-- The view `v` is reached from `v0` within a turn: the invariant holds in `v`, and the
clock and the process count are those of `v0`. -/
structure View.After (a : List Int) (v0 v : View) : Prop where
  good : v.Good a
  clock : v.clockCycles = v0.clockCycles
  count : v.count = v0.count

/-- Invariant of a state of `main`: the invariant of its view. -/
def Sched.Inv (m : Sched) : Prop :=
  m.os.view.Good m.arrival_times

/-- The state `m` of `main` is stuck like `m0`: nothing has faulted, the loop has not been
left, the control blocks of all processes, the blocked queue and the turns taken are
those of `m0`, and inside the inner loop the flag `anyProcessActive` is down. -/
def Sched.Stuck (m0 m : Sched) : Prop :=
  m.os.fault = none ∧ m.loc ≠ Loc.exited ∧ m.arrival_times = m0.arrival_times ∧
  m.os.view.pcb = m0.os.view.pcb ∧ m.os.blockedQueue = m0.os.blockedQueue ∧
  m.os.view.execs = m0.os.view.execs ∧
  (m.loc = Loc.innerHead → m.anyProcessActive = false)

/-! ## Queue lemmas -/

theorem initQueue_wf (q : ProcessQueue) (h : q.processes.length = MAX_PROCESSES) :
    (initQueue q).WF := by
  constructor <;> simp [initQueue, h]

theorem initQueue_contents (q : ProcessQueue) : (initQueue q).contents = [] := by
  simp [initQueue, ProcessQueue.contents]

theorem contents_length (q : ProcessQueue) : q.contents.length = q.size := by
  simp [ProcessQueue.contents]

theorem enqueue_full (q : ProcessQueue) (p : Nat) (h : q.size = 10) : enqueue q p = q := by
  simp [enqueue, isQueueFull, h]

theorem enqueue_not_full (q : ProcessQueue) (p : Nat) (h : q.size ≠ 10) :
    enqueue q p =
      { processes := q.processes.set (Int.tmod (q.rear + 1) 10).toNat p, front := q.front,
        rear := Int.tmod (q.rear + 1) 10, size := q.size + 1 } := by
  simp [enqueue, isQueueFull, h]

theorem dequeue_empty (q : ProcessQueue) (h : q.size = 0) : dequeue q = (none, q) := by
  simp [dequeue, isQueueEmpty, h]

theorem dequeue_not_empty (q : ProcessQueue) (h : q.size ≠ 0) :
    dequeue q =
      (some (q.processes.getD q.front 0),
       { processes := q.processes, front := (q.front + 1) % 10, rear := q.rear,
         size := q.size - 1 }) := by
  simp [dequeue, isQueueEmpty, h]

theorem enqueue_wf (q : ProcessQueue) (p : Nat) (h : q.WF) : (enqueue q p).WF := by
  by_cases hf : q.size = 10
  · rw [enqueue_full q p hf]; exact h
  · obtain ⟨h1, h2, h3, h4, h5⟩ := h
    simp only [MAX_PROCESSES] at h1 h2 h3
    have hnn : (0 : Int) ≤ q.rear + 1 := by omega
    have ht : Int.tmod (q.rear + 1) 10 = (q.rear + 1) % 10 := Int.tmod_eq_emod hnn (by decide)
    rw [enqueue_not_full q p hf, ht]
    constructor
    · simp [h1]
    · exact h2
    · simp only [MAX_PROCESSES]; omega
    · simp only; omega
    · simp only; push_cast; omega

theorem dequeue_wf (q : ProcessQueue) (h : q.WF) : (dequeue q).2.WF := by
  by_cases he : q.size = 0
  · rw [dequeue_empty q he]; exact h
  · obtain ⟨h1, h2, h3, h4, h5⟩ := h
    simp only [MAX_PROCESSES] at h1 h2 h3
    rw [dequeue_not_empty q he]
    constructor
    · exact h1
    · simp only [MAX_PROCESSES]; omega
    · simp only [MAX_PROCESSES]; omega
    · exact h4
    · simp only; push_cast; omega

theorem enqueue_contents (q : ProcessQueue) (p : Nat) (h : q.WF) :
    (enqueue q p).contents = if q.size < 10 then q.contents ++ [p] else q.contents := by
  by_cases hf : q.size = 10
  · rw [enqueue_full q p hf]; simp [hf]
  · obtain ⟨h1, h2, h3, h4, h5⟩ := h
    simp only [MAX_PROCESSES] at h1 h2 h3
    have hlt : q.size < 10 := by omega
    have hnn : (0 : Int) ≤ q.rear + 1 := by omega
    have ht : Int.tmod (q.rear + 1) 10 = (q.rear + 1) % 10 := Int.tmod_eq_emod hnn (by decide)
    have hr : ((q.rear + 1) % 10).toNat = (q.front + q.size) % 10 := by omega
    rw [enqueue_not_full q p hf, ht, hr, if_pos hlt]
    simp only [ProcessQueue.contents, List.range_succ, List.map_append, List.map_cons,
      List.map_nil]
    congr 1
    · apply List.map_congr_left
      intro i hi
      have hi' : i < q.size := List.mem_range.mp hi
      have hne : (q.front + q.size) % 10 ≠ (q.front + i) % 10 := by omega
      simp [List.getD_eq_getElem?_getD, List.getElem?_set_ne hne]
    · have hb : (q.front + q.size) % 10 < q.processes.length := by omega
      simp [List.getD_eq_getElem?_getD, List.getElem?_set_self hb]

theorem dequeue_contents (q : ProcessQueue) (h : q.WF) :
    (dequeue q).1 = q.contents.head? ∧ (dequeue q).2.contents = q.contents.tail := by
  by_cases he : q.size = 0
  · rw [dequeue_empty q he]; simp [ProcessQueue.contents, he]
  · obtain ⟨h1, h2, h3, h4, h5⟩ := h
    simp only [MAX_PROCESSES] at h1 h2 h3
    rw [dequeue_not_empty q he]
    obtain ⟨n, hn⟩ : ∃ n, q.size = n + 1 := ⟨q.size - 1, by omega⟩
    simp only [ProcessQueue.contents, hn, List.range_succ_eq_map, List.map_cons, List.map_map,
      List.head?_cons, List.tail_cons, Nat.add_sub_cancel, MAX_PROCESSES]
    constructor
    · simp [Nat.mod_eq_of_lt h2]
    · apply List.map_congr_left
      intro i _
      simp only [Function.comp]
      congr 1
      omega

theorem runQueueOps_wf (ops : List QueueOp) (q : ProcessQueue) (h : q.WF) :
    (runQueueOps ops q).1.WF := by
  induction ops generalizing q with
  | nil => exact h
  | cons op ops ih =>
    cases op with
    | enq p => exact ih _ (enqueue_wf q p h)
    | deq => exact ih _ (dequeue_wf q h)

theorem specDequeue_eq (l : List Nat) : specDequeue l = (l.head?, l.tail) := by
  cases l <;> rfl

theorem runQueueOps_sim (ops : List QueueOp) (q : ProcessQueue) (h : q.WF) :
    (runQueueOps ops q).1.contents = (runSpecOps ops q.contents).1 ∧
      (runQueueOps ops q).2 = (runSpecOps ops q.contents).2 := by
  induction ops generalizing q with
  | nil => exact ⟨rfl, rfl⟩
  | cons op ops ih =>
    cases op with
    | enq p =>
      have hc := enqueue_contents q p h
      have hs : specEnqueue q.contents p = (enqueue q p).contents := by
        rw [hc, specEnqueue, contents_length]
      simp only [runQueueOps, runSpecOps, hs]
      exact ih _ (enqueue_wf q p h)
    | deq =>
      obtain ⟨hd, htl⟩ := dequeue_contents q h
      have ih2 := ih _ (dequeue_wf q h)
      simp only [runQueueOps, runSpecOps, specDequeue_eq, hd]
      rw [htl] at ih2
      exact ⟨ih2.1, by rw [ih2.2]⟩

/-- C6: the circular buffer refines a bounded FIFO list.  From `initQueue` (on any ten
slots) and after any sequence of `enqueue` / `dequeue` calls, the slots read from `front`
are the list obtained by running the same calls on the bounded FIFO of the specification,
and every `dequeue` returned the same result; on the queue reached, `enqueue` appends when
fewer than ten elements are held and returns the queue unchanged at ten, `dequeue` returns
the first element and leaves the rest, `dequeue` on the empty queue returns `NULL` and the
queue unchanged, and `isQueueEmpty` / `isQueueFull` hold exactly at length 0 / 10. -/
theorem queue_refines_bounded_fifo (q0 : ProcessQueue)
    (h0 : q0.processes.length = MAX_PROCESSES) (ops : List QueueOp) :
    (runQueueOps ops (initQueue q0)).1.contents = (runSpecOps ops []).1 ∧
    (runQueueOps ops (initQueue q0)).2 = (runSpecOps ops []).2 ∧
    (runQueueOps ops (initQueue q0)).1.contents.length ≤ 10 ∧
    (∀ p, (enqueue (runQueueOps ops (initQueue q0)).1 p).contents =
        if (runQueueOps ops (initQueue q0)).1.contents.length < 10
        then (runQueueOps ops (initQueue q0)).1.contents ++ [p]
        else (runQueueOps ops (initQueue q0)).1.contents) ∧
    (∀ p, (runQueueOps ops (initQueue q0)).1.contents.length = 10 →
        enqueue (runQueueOps ops (initQueue q0)).1 p = (runQueueOps ops (initQueue q0)).1) ∧
    (dequeue (runQueueOps ops (initQueue q0)).1).1 =
        (runQueueOps ops (initQueue q0)).1.contents.head? ∧
    (dequeue (runQueueOps ops (initQueue q0)).1).2.contents =
        (runQueueOps ops (initQueue q0)).1.contents.tail ∧
    ((runQueueOps ops (initQueue q0)).1.contents = [] →
        dequeue (runQueueOps ops (initQueue q0)).1 =
          (none, (runQueueOps ops (initQueue q0)).1)) ∧
    (isQueueEmpty (runQueueOps ops (initQueue q0)).1 = true ↔
        (runQueueOps ops (initQueue q0)).1.contents.length = 0) ∧
    (isQueueFull (runQueueOps ops (initQueue q0)).1 = true ↔
        (runQueueOps ops (initQueue q0)).1.contents.length = 10) := by
  have hw0 := initQueue_wf q0 h0
  have hsim := runQueueOps_sim ops (initQueue q0) hw0
  rw [initQueue_contents] at hsim
  have hw := runQueueOps_wf ops (initQueue q0) hw0
  generalize (runQueueOps ops (initQueue q0)).1 = q at hw hsim
  refine ⟨hsim.1, hsim.2, ?_, ?_, ?_, (dequeue_contents q hw).1, (dequeue_contents q hw).2,
    ?_, ?_, ?_⟩
  · rw [contents_length]; exact hw.size_le
  · intro p; rw [contents_length]; exact enqueue_contents q p hw
  · intro p hp; rw [contents_length] at hp; exact enqueue_full q p hp
  · intro hp
    have : q.size = 0 := by rw [← contents_length, hp]; rfl
    exact dequeue_empty q this
  · rw [contents_length]; simp [isQueueEmpty]
  · rw [contents_length]; simp [isQueueFull]

/-- Witness for C6: three calls on a freshly initialised static queue. -/
theorem queue_refines_bounded_fifo_witness :
    zeroQueue.processes.length = MAX_PROCESSES ∧
    (runQueueOps [QueueOp.enq 4, QueueOp.enq 7, QueueOp.deq] (initQueue zeroQueue)).1.contents
      = [7] ∧
    (runQueueOps [QueueOp.enq 4, QueueOp.enq 7, QueueOp.deq] (initQueue zeroQueue)).2
      = [some 4] :=
  ⟨by decide,
   (queue_refines_bounded_fifo zeroQueue (by decide)
      [QueueOp.enq 4, QueueOp.enq 7, QueueOp.deq]).1.trans (by decide),
   (queue_refines_bounded_fifo zeroQueue (by decide)
      [QueueOp.enq 4, QueueOp.enq 7, QueueOp.deq]).2.1.trans (by decide)⟩


/-! ## The resource manager -/

theorem proc_setProc_self (s : OS) (p : Nat) (pr : Process) (h : p < s.heap.length) :
    (s.setProc p pr).proc p = pr := by
  simp [OS.proc, OS.setProc, List.getD_eq_getElem?_getD, List.getElem?_set_self h]

theorem proc_setProc_ne (s : OS) (p q : Nat) (pr : Process) (h : p ≠ q) :
    (s.setProc p pr).proc q = s.proc q := by
  simp [OS.proc, OS.setProc, List.getD_eq_getElem?_getD, List.getElem?_set_ne h]

theorem proc_setProc_invalid (s : OS) (p q : Nat) (pr : Process) (h : s.heap.length ≤ p) :
    (s.setProc p pr).proc q = s.proc q := by
  simp [OS.proc, OS.setProc, List.set_eq_of_length_le h]

theorem resource_names_ne :
    "file".toList ≠ "userInput".toList ∧ "userOutput".toList ≠ "userInput".toList ∧
    "userOutput".toList ≠ "file".toList := by
  decide

/-- C3: postcondition of `executeSemWait(p, r)` for the three resource names, `p` a live
process pointer and the blocked queue well laid out.  If the lock of `r` is not locked: it
is locked afterwards, the other locks, the heap (so the state of `p`) and the blocked queue
are unchanged.  If it is locked: `p` is `BLOCKED` with `waiting_for_resource = r`, `p` has
been appended at the tail of the blocked queue when that queue was not full, and the three
mutex variables are unchanged. -/
theorem executeSemWait_post (s : OS) (p : Nat) (r : Text)
    (hr : r = "userInput".toList ∨ r = "file".toList ∨ r = "userOutput".toList)
    (hp : p < s.heap.length) (hq : s.blockedQueue.WF) :
    (mutexOf s r ≠ some 0 →
        mutexOf (executeSemWait s p (some r)) r = some 0 ∧
        (∀ r', r' ≠ r → mutexOf (executeSemWait s p (some r)) r' = mutexOf s r') ∧
        (executeSemWait s p (some r)).heap = s.heap ∧
        ((executeSemWait s p (some r)).proc p).pcb.process_state
          = (s.proc p).pcb.process_state ∧
        (executeSemWait s p (some r)).blockedQueue = s.blockedQueue) ∧
    (mutexOf s r = some 0 →
        ((executeSemWait s p (some r)).proc p).pcb.process_state = ProcessState.BLOCKED ∧
        ((executeSemWait s p (some r)).proc p).pcb.waiting_for_resource = r ∧
        (s.blockedQueue.size < 10 →
          (executeSemWait s p (some r)).blockedQueue.contents
            = s.blockedQueue.contents ++ [p]) ∧
        (executeSemWait s p (some r)).file_mutex = s.file_mutex ∧
        (executeSemWait s p (some r)).user_input_mutex = s.user_input_mutex ∧
        (executeSemWait s p (some r)).screen_output_mutex = s.screen_output_mutex) := by
  obtain ⟨n1, n2, n3⟩ := resource_names_ne
  have hblock : ∀ r0 : Text,
      ((blockProcess s p r0).proc p).pcb.process_state = ProcessState.BLOCKED ∧
      ((blockProcess s p r0).proc p).pcb.waiting_for_resource = r0 ∧
      (s.blockedQueue.size < 10 →
        (blockProcess s p r0).blockedQueue.contents = s.blockedQueue.contents ++ [p]) ∧
      (blockProcess s p r0).file_mutex = s.file_mutex ∧
      (blockProcess s p r0).user_input_mutex = s.user_input_mutex ∧
      (blockProcess s p r0).screen_output_mutex = s.screen_output_mutex := by
    intro r0
    have hproc : (blockProcess s p r0).proc p =
        { s.proc p with pcb := { (s.proc p).pcb with
            process_state := ProcessState.BLOCKED, waiting_for_resource := r0 } } :=
      proc_setProc_self s p _ hp
    refine ⟨by rw [hproc], by rw [hproc], ?_, rfl, rfl, rfl⟩
    intro hlt
    show (enqueue s.blockedQueue p).contents = _
    rw [enqueue_contents _ _ hq, if_pos hlt]
  constructor
  · intro hfree
    rcases hr with rfl | rfl | rfl
    · have h0 : s.user_input_mutex ≠ 0 := by simpa [mutexOf] using hfree
      have hE : executeSemWait s p (some "userInput".toList) = { s with user_input_mutex := 0 } := by
        simp only [executeSemWait, if_true, if_neg h0]
      rw [hE]
      refine ⟨by simp [mutexOf], ?_, rfl, rfl, rfl⟩
      intro r' hr'
      simp only [mutexOf, if_neg hr']
    · have h0 : s.file_mutex ≠ 0 := by simpa [mutexOf, n1] using hfree
      have hE : executeSemWait s p (some "file".toList) = { s with file_mutex := 0 } := by
        simp only [executeSemWait, if_true, if_neg h0, if_neg n1]
      rw [hE]
      refine ⟨by simp [mutexOf, n1], ?_, rfl, rfl, rfl⟩
      intro r' hr'
      simp only [mutexOf, if_neg hr']
    · have h0 : s.screen_output_mutex ≠ 0 := by simpa [mutexOf, n2, n3] using hfree
      have hE : executeSemWait s p (some "userOutput".toList)
          = { s with screen_output_mutex := 0 } := by
        simp only [executeSemWait, if_true, if_neg h0, if_neg n2, if_neg n3]
      rw [hE]
      refine ⟨by simp [mutexOf, n2, n3], ?_, rfl, rfl, rfl⟩
      intro r' hr'
      simp only [mutexOf, if_neg hr']
  · intro hlocked
    rcases hr with rfl | rfl | rfl
    · have h0 : s.user_input_mutex = 0 := by simpa [mutexOf] using hlocked
      have hE : executeSemWait s p (some "userInput".toList)
          = blockProcess s p "userInput".toList := by
        simp only [executeSemWait, if_true, if_pos h0]
      rw [hE]
      exact hblock _
    · have h0 : s.file_mutex = 0 := by simpa [mutexOf, n1] using hlocked
      have hE : executeSemWait s p (some "file".toList) = blockProcess s p "file".toList := by
        simp only [executeSemWait, if_true, if_pos h0, if_neg n1]
      rw [hE]
      exact hblock _
    · have h0 : s.screen_output_mutex = 0 := by simpa [mutexOf, n2, n3] using hlocked
      have hE : executeSemWait s p (some "userOutput".toList)
          = blockProcess s p "userOutput".toList := by
        simp only [executeSemWait, if_true, if_pos h0, if_neg n2, if_neg n3]
      rw [hE]
      exact hblock _

theorem unblockLoop_succ_match (r : Text) (n : Nat) (s : OS) (p : Nat)
    (hd : (dequeue s.blockedQueue).1 = some p)
    (hm : (s.proc p).pcb.waiting_for_resource = r) :
    unblockLoop r (n + 1) s =
      unblockLoop r n
        { s with
          heap := s.heap.set p ((s.proc p).setState ProcessState.READY)
          blockedQueue := (dequeue s.blockedQueue).2
          readyQueue := enqueue s.readyQueue p } := by
  rw [unblockLoop]
  simp only [hd]
  rw [if_pos (by exact hm)]
  rfl

theorem unblockLoop_succ_keep (r : Text) (n : Nat) (s : OS) (p : Nat)
    (hd : (dequeue s.blockedQueue).1 = some p)
    (hm : (s.proc p).pcb.waiting_for_resource ≠ r) :
    unblockLoop r (n + 1) s =
      unblockLoop r n { s with blockedQueue := enqueue (dequeue s.blockedQueue).2 p } := by
  rw [unblockLoop]
  simp only [hd]
  rw [if_neg (by exact hm)]

theorem waiting_after_ready (s : OS) (p q : Nat) :
    ((s.setProc p ((s.proc p).setState ProcessState.READY)).proc q).pcb.waiting_for_resource
      = (s.proc q).pcb.waiting_for_resource := by
  by_cases hqp : p = q
  · subst hqp
    by_cases hlt : p < s.heap.length
    · rw [proc_setProc_self s p _ hlt]; rfl
    · rw [proc_setProc_invalid s p p _ (by omega)]
  · rw [proc_setProc_ne s p q _ hqp]

/-- What the loop of `unblockProcesses` does to a well laid out blocked queue whose first
`n` entries `rest` remain to be scanned, the entries `kept` behind them having been put
back already; `w` gives the resource each process waits for. -/
theorem unblockLoop_spec (r : Text) (w : Nat → Text) (n : Nat) :
    ∀ (s : OS) (rest kept : List Nat),
    s.blockedQueue.WF → s.blockedQueue.contents = rest ++ kept → rest.length = n →
    (∀ q, (s.proc q).pcb.waiting_for_resource = w q) →
    (unblockLoop r n s).blockedQueue.WF ∧
    (unblockLoop r n s).blockedQueue.contents =
      kept ++ rest.filter (fun p => !decide (w p = r)) ∧
    (unblockLoop r n s).fault = s.fault ∧
    (unblockLoop r n s).file_mutex = s.file_mutex ∧
    (unblockLoop r n s).user_input_mutex = s.user_input_mutex ∧
    (unblockLoop r n s).screen_output_mutex = s.screen_output_mutex ∧
    (unblockLoop r n s).heap.length = s.heap.length ∧
    (∀ q, ((unblockLoop r n s).proc q).pcb.waiting_for_resource = w q) ∧
    (∀ q, q ∈ rest → q < s.heap.length → w q = r →
        ((unblockLoop r n s).proc q).pcb.process_state = ProcessState.READY) ∧
    (∀ q, ¬ (q ∈ rest ∧ w q = r) → (unblockLoop r n s).proc q = s.proc q) ∧
    (s.readyQueue.WF →
      (unblockLoop r n s).readyQueue.WF ∧
      (unblockLoop r n s).readyQueue.contents =
        (rest.filter (fun p => decide (w p = r))).foldl specEnqueue s.readyQueue.contents) := by
  induction n with
  | zero =>
    intro s rest kept hwf hc hl hw
    have hrest : rest = [] := List.length_eq_zero.mp hl
    subst hrest
    refine ⟨hwf, by simpa using hc, rfl, rfl, rfl, rfl, rfl, hw, ?_, fun _ _ => rfl,
      fun h => ⟨h, rfl⟩⟩
    intro q hq
    simp at hq
  | succ n ih =>
    intro s rest kept hwf hc hl hw
    obtain ⟨p, rest', rfl⟩ : ∃ p rest', rest = p :: rest' := by
      cases rest with
      | nil => simp at hl
      | cons p rest' => exact ⟨p, rest', rfl⟩
    have hl' : rest'.length = n := by simpa using hl
    obtain ⟨hd, htl⟩ := dequeue_contents s.blockedQueue hwf
    rw [hc] at hd htl
    simp only [List.cons_append, List.head?_cons, List.tail_cons] at hd htl
    have hwf' := dequeue_wf s.blockedQueue hwf
    by_cases hm : w p = r
    · rw [unblockLoop_succ_match r n s p hd ((hw p).trans hm)]
      have hproc : ∀ q, ({ s with
            heap := s.heap.set p ((s.proc p).setState ProcessState.READY)
            blockedQueue := (dequeue s.blockedQueue).2
            readyQueue := enqueue s.readyQueue p } : OS).proc q
          = (s.setProc p ((s.proc p).setState ProcessState.READY)).proc q := fun _ => rfl
      obtain ⟨i1, i2, i3, i4, i5, i6, i7, i8, i9, i10, i11⟩ :=
        ih { s with
            heap := s.heap.set p ((s.proc p).setState ProcessState.READY)
            blockedQueue := (dequeue s.blockedQueue).2
            readyQueue := enqueue s.readyQueue p } rest' kept hwf' htl hl'
          (fun q => by rw [hproc, waiting_after_ready]; exact hw q)
      refine ⟨i1, ?_, i3, i4, i5, i6, ?_, i8, ?_, ?_, ?_⟩
      · rw [i2]; simp [List.filter_cons, hm]
      · rw [i7]; simp
      · intro q hq hlt hwq
        by_cases hq' : q ∈ rest'
        · exact i9 q hq' (by simpa using hlt) hwq
        · have hqp : q = p := by
            rcases List.mem_cons.mp hq with h | h
            · exact h
            · exact absurd h hq'
          subst hqp
          rw [i10 q (fun h => hq' h.1), hproc, proc_setProc_self s q _ hlt]
          rfl
      · intro q hq
        have hqp : p ≠ q := by
          intro h; subst h; exact hq ⟨List.mem_cons_self _ _, hm⟩
        rw [i10 q (fun h => hq ⟨List.mem_cons_of_mem _ h.1, h.2⟩), hproc]
        exact proc_setProc_ne s p q _ hqp
      · intro hr
        obtain ⟨j1, j2⟩ := i11 (enqueue_wf _ p hr)
        refine ⟨j1, ?_⟩
        rw [j2]
        simp only [List.filter_cons, hm, decide_True, if_true, List.foldl_cons]
        congr 1
        show (enqueue s.readyQueue p).contents = _
        rw [enqueue_contents _ _ hr, specEnqueue, contents_length]
    · rw [unblockLoop_succ_keep r n s p hd (fun h => hm ((hw p).symm.trans h))]
      have hsz : (dequeue s.blockedQueue).2.size < 10 := by
        have h1 := contents_length (dequeue s.blockedQueue).2
        have h2 := contents_length s.blockedQueue
        rw [htl] at h1
        rw [hc] at h2
        have h3 := hwf.size_le
        simp only [List.length_cons, List.length_append] at h1 h2
        simp only [MAX_PROCESSES] at h3
        omega
      have hc' : (enqueue (dequeue s.blockedQueue).2 p).contents = rest' ++ (kept ++ [p]) := by
        rw [enqueue_contents _ _ hwf', if_pos hsz, htl, List.append_assoc]
      obtain ⟨i1, i2, i3, i4, i5, i6, i7, i8, i9, i10, i11⟩ :=
        ih { s with blockedQueue := enqueue (dequeue s.blockedQueue).2 p } rest' (kept ++ [p])
          (enqueue_wf _ p hwf') hc' hl' hw
      refine ⟨i1, ?_, i3, i4, i5, i6, i7, i8, ?_, ?_, ?_⟩
      · rw [i2]; simp [List.filter_cons, hm]
      · intro q hq hlt hwq
        have hq' : q ∈ rest' := by
          rcases List.mem_cons.mp hq with h | h
          · subst h; exact absurd hwq hm
          · exact h
        exact i9 q hq' hlt hwq
      · intro q hq
        exact i10 q (fun h => hq ⟨List.mem_cons_of_mem _ h.1, h.2⟩)
      · intro hr
        obtain ⟨j1, j2⟩ := i11 hr
        refine ⟨j1, ?_⟩
        rw [j2]
        simp [List.filter_cons, hm]

theorem mutexOf_congr (s s' : OS) (h1 : s'.file_mutex = s.file_mutex)
    (h2 : s'.user_input_mutex = s.user_input_mutex)
    (h3 : s'.screen_output_mutex = s.screen_output_mutex) (r : Text) :
    mutexOf s' r = mutexOf s r := by
  simp only [mutexOf, h1, h2, h3]

/-- The function `executeSemSignal` is `unblockProcesses` on a state that differs from the
given one in the mutex variables only, the mutex of a recognised name being released. -/
theorem executeSemSignal_eq (s : OS) (r : Text) :
    ∃ s1 : OS, executeSemSignal s (some r) = unblockProcesses s1 r ∧
      s1.blockedQueue = s.blockedQueue ∧ s1.readyQueue = s.readyQueue ∧ s1.heap = s.heap ∧
      s1.fault = s.fault ∧
      ((r = "userInput".toList ∨ r = "file".toList ∨ r = "userOutput".toList) →
        mutexOf s1 r = some 1) := by
  obtain ⟨n1, n2, n3⟩ := resource_names_ne
  by_cases h1 : r = "userInput".toList
  · refine ⟨{ s with user_input_mutex := 1 }, ?_, rfl, rfl, rfl, rfl, ?_⟩
    · simp only [executeSemSignal, if_pos h1]
    · intro _; simp only [mutexOf, if_pos h1]
  · by_cases h2 : r = "file".toList
    · refine ⟨{ s with file_mutex := 1 }, ?_, rfl, rfl, rfl, rfl, ?_⟩
      · simp only [executeSemSignal, if_neg h1, if_pos h2]
      · intro _; simp only [mutexOf, if_neg h1, if_pos h2]
    · by_cases h3 : r = "userOutput".toList
      · refine ⟨{ s with screen_output_mutex := 1 }, ?_, rfl, rfl, rfl, rfl, ?_⟩
        · simp only [executeSemSignal, if_neg h1, if_neg h2, if_pos h3]
        · intro _; simp only [mutexOf, if_neg h1, if_neg h2, if_pos h3]
      · refine ⟨s, ?_, rfl, rfl, rfl, rfl, ?_⟩
        · simp only [executeSemSignal, if_neg h1, if_neg h2, if_neg h3]
        · intro h; rcases h with h | h | h
          · exact absurd h h1
          · exact absurd h h2
          · exact absurd h h3

theorem proc_congr (s s' : OS) (h : s'.heap = s.heap) (q : Nat) : s'.proc q = s.proc q := by
  simp only [OS.proc, h]

theorem foldl_specEnqueue (ws l : List Nat) :
    ws.foldl specEnqueue l = l ++ ws.take (10 - l.length) := by
  induction ws generalizing l with
  | nil => simp
  | cons p ws ih =>
    rw [List.foldl_cons, ih]
    by_cases h : l.length < 10
    · obtain ⟨k, hk⟩ : ∃ k, 10 - l.length = k + 1 := ⟨10 - l.length - 1, by omega⟩
      have hk' : 10 - (l.length + 1) = k := by omega
      simp [specEnqueue, h, hk, hk']
    · have h0 : 10 - l.length = 0 := by omega
      simp [specEnqueue, h, h0]

/-- C4: wake-all, blocked side.  For the three resource names and every well laid out
blocked queue (any contents, any front index, any size up to ten) whose entries are live
process pointers: after `executeSemSignal(r)` the lock of `r` is free, the blocked queue
holds exactly the previously blocked processes that wait for another resource, in their
original order, the records of those processes (their state included) are unchanged, every
process taken out of the blocked queue is `READY`, and no fault is raised. -/
theorem executeSemSignal_blocked_side (s : OS) (r : Text)
    (hr : r = "userInput".toList ∨ r = "file".toList ∨ r = "userOutput".toList)
    (hq : s.blockedQueue.WF) (hlive : ∀ p ∈ s.blockedQueue.contents, p < s.heap.length) :
    mutexOf (executeSemSignal s (some r)) r = some 1 ∧
    (executeSemSignal s (some r)).blockedQueue.contents = otherWaiters s r ∧
    (∀ p ∈ otherWaiters s r, (executeSemSignal s (some r)).proc p = s.proc p) ∧
    (∀ p ∈ waiters s r,
      ((executeSemSignal s (some r)).proc p).pcb.process_state = ProcessState.READY) ∧
    (executeSemSignal s (some r)).fault = s.fault := by
  obtain ⟨s1, hE, hb, -, hh, hf, hm⟩ := executeSemSignal_eq s r
  have hpr := proc_congr s s1 hh
  obtain ⟨-, i2, i3, i4, i5, i6, -, -, i9, i10, -⟩ :=
    unblockLoop_spec r (fun q => (s.proc q).pcb.waiting_for_resource) s1.blockedQueue.size s1
      s.blockedQueue.contents [] (by rw [hb]; exact hq) (by rw [hb]; simp)
      (by rw [hb, contents_length]) (fun q => by rw [hpr])
  rw [hE, unblockProcesses]
  refine ⟨?_, ?_, ?_, ?_, ?_⟩
  · rw [mutexOf_congr s1 _ i4 i5 i6]; exact hm hr
  · rw [i2]; simp [otherWaiters]
  · intro p hp
    have hp' := List.mem_filter.mp hp
    rw [i10 p (fun h => by simpa [h.2] using hp'.2), hpr]
  · intro p hp
    have hp' := List.mem_filter.mp hp
    exact i9 p hp'.1 (by rw [hh]; exact hlive p hp'.1) (by simpa using hp'.2)
  · rw [i3, hf]

/-- C5, amended: wake-all, ready side.  For every resource name and every state whose
blocked and ready queues are well laid out, after `executeSemSignal(r)` the ready queue is
its previous contents followed by the waiters of `r` in blocked-queue order, as many of
them as fit in the ten slots; when the ready queue has room for all of them, it is its
previous contents followed by all the waiters, and every waiter is a member of it. -/
theorem executeSemSignal_ready_side (s : OS) (r : Text)
    (hb : s.blockedQueue.WF) (hrd : s.readyQueue.WF) :
    (executeSemSignal s (some r)).readyQueue.contents =
      s.readyQueue.contents ++ (waiters s r).take (10 - s.readyQueue.size) ∧
    (s.readyQueue.size + (waiters s r).length ≤ 10 →
      (executeSemSignal s (some r)).readyQueue.contents = s.readyQueue.contents ++ waiters s r ∧
      ∀ p ∈ waiters s r, p ∈ (executeSemSignal s (some r)).readyQueue.contents) := by
  obtain ⟨s1, hE, hbq, hrq, hh, -, -⟩ := executeSemSignal_eq s r
  have hpr := proc_congr s s1 hh
  obtain ⟨-, -, -, -, -, -, -, -, -, -, i11⟩ :=
    unblockLoop_spec r (fun q => (s.proc q).pcb.waiting_for_resource) s1.blockedQueue.size s1
      s.blockedQueue.contents [] (by rw [hbq]; exact hb) (by rw [hbq]; simp)
      (by rw [hbq, contents_length]) (fun q => by rw [hpr])
  obtain ⟨-, j2⟩ := i11 (by rw [hrq]; exact hrd)
  have hgen : (executeSemSignal s (some r)).readyQueue.contents =
      s.readyQueue.contents ++ (waiters s r).take (10 - s.readyQueue.size) := by
    rw [hE, unblockProcesses, j2, foldl_specEnqueue, hrq, contents_length]
    rfl
  refine ⟨hgen, ?_⟩
  intro hroom
  have htake : (waiters s r).take (10 - s.readyQueue.size) = waiters s r :=
    List.take_of_length_le (by omega)
  rw [htake] at hgen
  refine ⟨hgen, ?_⟩
  intro p hp
  rw [hgen]
  exact List.mem_append_right _ hp

/-! ## Scenario runs -/

set_option maxRecDepth 100000 in
/-- C1: round-robin order.  With two processes admitted at tick 0, each holding three
`print` instructions (none blocks), the first four interpreter turns are taken by processes
1, 2, 1, 1 and not by 1, 2, 1, 2: after its turn a process stands twice in the ready queue
(`executeProcess` enqueues it on quantum expiry and `main` enqueues it again), so the
second pass runs process 1 twice in a row.  The whole run executes in the order
1, 2, 1, 1, 2, 2 and exits. -/
theorem round_robin_order_broken :
    (run 1 scenarioFair).os.readyQueue.contents = [0, 1] ∧
    (run 2 scenarioFair).os.readyQueue.contents = [1, 0, 0] ∧
    (run 3 scenarioFair).os.readyQueue.contents = [0, 0, 1, 1] ∧
    executions (run 5 scenarioFair).os.out = [1, 2, 1, 1] ∧
    (executions (run 14 scenarioFair).os.out).take (2 * 2) ≠ [1, 2, 1, 2] ∧
    executions (run 14 scenarioFair).os.out = [1, 2, 1, 1, 2, 2] ∧
    (run 14 scenarioFair).loc = Loc.exited ∧
    (run 14 scenarioFair).os.fault = none := by
  decide

set_option maxRecDepth 100000 in
/-- C2: mutual exclusion.  After five steps of `scenarioMutex` both processes (pointers 0
and 1) hold `file`:
the first has re-acquired the lock, and the second, which blocked on its `semWait file`,
was woken by the first's `semSignal file` and stands `READY` behind that `semWait` without
having taken the lock. -/
theorem mutual_exclusion_broken :
    (run 5 scenarioMutex).os.fault = none ∧
    executions (run 5 scenarioMutex).os.out = [1, 2, 1, 1] ∧
    (run 5 scenarioMutex).os.file_mutex = 0 ∧
    ((run 5 scenarioMutex).os.proc 0).pcb.process_state = ProcessState.READY ∧
    ((run 5 scenarioMutex).os.proc 1).pcb.process_state = ProcessState.READY ∧
    ((run 5 scenarioMutex).os.proc 0).pcb.program_counter = 3 ∧
    ((run 5 scenarioMutex).os.proc 1).pcb.program_counter = 1 ∧
    holds (run 5 scenarioMutex).os 0 "file".toList = true ∧
    holds (run 5 scenarioMutex).os 1 "file".toList = true := by
  decide

set_option maxRecDepth 100000 in
/-- C7: termination with every process finished.  For one process that arrives at tick 1
with the program [print x], the main loop exits on its second step, at clock 0, with the
closing message printed, while the process was never admitted (the storage unit and the
ready queue are empty), took no turn, is still `READY` at program counter 0 and still
holds its instruction. -/
theorem late_arrival_never_runs :
    (run 2 scenarioLate).loc = Loc.exited ∧
    (run 2 scenarioLate).os.fault = none ∧
    (run 2 scenarioLate).os.clockCycles = 0 ∧
    (run 2 scenarioLate).os.out = [Event.allFinished] ∧
    (run 2 scenarioLate).os.storageQueue.contents = [] ∧
    (run 2 scenarioLate).os.readyQueue.contents = [] ∧
    ((run 2 scenarioLate).os.proc 0).pcb.process_state = ProcessState.READY ∧
    ((run 2 scenarioLate).os.proc 0).pcb.program_counter = 0 ∧
    ((run 2 scenarioLate).os.proc 0).instructions.getD 0 [] = ln "print x" := by
  decide

theorem run_add (a b : Nat) (m : Sched) : run (a + b) m = run b (run a m) := by
  induction a generalizing m with
  | zero => simp [run]
  | succ a ih => rw [Nat.add_right_comm, run, ih]; rfl

theorem run_exited (k : Nat) (m : Sched) (h : m.loc = Loc.exited) : run k m = m := by
  induction k with
  | zero => rfl
  | succ k ih =>
    have hstep : mainStep m = m := by
      unfold mainStep
      split
      · rfl
      · simp [h]
    rw [run, hstep, ih]

set_option maxRecDepth 100000 in
theorem scenarioAB_run :
    (run 7 scenarioAB).loc ≠ Loc.exited ∧
    (run 8 scenarioAB).loc = Loc.exited ∧
    (run 8 scenarioAB).os.fault = none ∧
    (run 8 scenarioAB).os.out =
      [Event.arrived 1 0, Event.arrived 2 0,
       Event.executing (ln "assign x 5") 1 0,
       Event.executing (ln "print y") 2 1,
       Event.variableNotFound (some "y".toList),
       Event.finished 2,
       Event.executing (ln "print x") 1 2,
       Event.printed "5".toList,
       Event.finished 1,
       Event.allFinished] ∧
    ((run 8 scenarioAB).os.proc 0).pcb.process_state = ProcessState.FINISHED ∧
    ((run 8 scenarioAB).os.proc 1).pcb.process_state = ProcessState.FINISHED ∧
    (run 8 scenarioAB).os.clockCycles = 3 := by
  decide

/-- C9: the concrete scenario.  With A = [assign x 5, print x] and B = [print y] arriving at
tick 0, the output of the run is: both arrive; A executes `assign x 5`; B executes
`print y`, which reports that y is not found, and B finishes; A executes `print x`, which
prints 5, and A finishes; the closing message.  These are exactly three interpreter turns,
by processes 1, 2, 1.  The loop exits at the eighth step, not before, both processes are
`FINISHED`, and the state never changes afterwards. -/
theorem concrete_scenario_trace :
    (run 7 scenarioAB).loc ≠ Loc.exited ∧
    (∀ k, (run (8 + k) scenarioAB).loc = Loc.exited) ∧
    (∀ k, (run (8 + k) scenarioAB).os.fault = none) ∧
    (∀ k, (run (8 + k) scenarioAB).os.out =
      [Event.arrived 1 0, Event.arrived 2 0,
       Event.executing (ln "assign x 5") 1 0,
       Event.executing (ln "print y") 2 1,
       Event.variableNotFound (some "y".toList),
       Event.finished 2,
       Event.executing (ln "print x") 1 2,
       Event.printed "5".toList,
       Event.finished 1,
       Event.allFinished]) ∧
    (∀ k, executions (run (8 + k) scenarioAB).os.out = [1, 2, 1]) ∧
    (∀ k, ((run (8 + k) scenarioAB).os.proc 0).pcb.process_state = ProcessState.FINISHED) ∧
    (∀ k, ((run (8 + k) scenarioAB).os.proc 1).pcb.process_state = ProcessState.FINISHED) := by
  obtain ⟨h7, h8, hf, ho, ha, hb, _⟩ := scenarioAB_run
  have hk : ∀ k, run (8 + k) scenarioAB = run 8 scenarioAB :=
    fun k => by rw [run_add, run_exited k _ h8]
  refine ⟨h7, ?_, ?_, ?_, ?_, ?_, ?_⟩ <;> intro k <;> rw [hk k]
  · exact h8
  · exact hf
  · exact ho
  · rw [ho]; decide
  · exact ha
  · exact hb

set_option maxRecDepth 100000 in
theorem scenarioDeadlock_run :
    (run 8 scenarioDeadlock).loc = Loc.outerHead ∧
    (run 8 scenarioDeadlock).os.fault = none ∧
    (run 8 scenarioDeadlock).os.readyQueue.size = 0 ∧
    (run 8 scenarioDeadlock).os.blockedQueue.size = 2 ∧
    (run 8 scenarioDeadlock).os.blockedQueue.contents = [0, 1] ∧
    (run 8 scenarioDeadlock).arrival_times = [0, 0] ∧
    (run 8 scenarioDeadlock).os.clockCycles = 4 ∧
    ((run 8 scenarioDeadlock).os.proc 0).pcb.process_state = ProcessState.BLOCKED ∧
    ((run 8 scenarioDeadlock).os.proc 1).pcb.process_state = ProcessState.BLOCKED := by
  decide

/-! ## Instances -/

set_option maxRecDepth 100000 in
theorem mutexTurnState_facts :
    1 < mutexTurnState.heap.length ∧ mutexTurnState.fault = none ∧
    mutexTurnState.blockedQueue.processes.length = MAX_PROCESSES ∧
    mutexTurnState.blockedQueue.front < MAX_PROCESSES ∧
    mutexTurnState.blockedQueue.size ≤ MAX_PROCESSES ∧
    -1 ≤ mutexTurnState.blockedQueue.rear ∧
    (mutexTurnState.blockedQueue.rear + 1) % 10
      = ((mutexTurnState.blockedQueue.front + mutexTurnState.blockedQueue.size : Nat) : Int) % 10 ∧
    mutexOf mutexTurnState "file".toList = some 0 ∧
    (tokenize ((mutexTurnState.proc 1).instructions.getD
      (mutexTurnState.proc 1).pcb.program_counter [])).instruction = some "semWait".toList ∧
    (tokenize ((mutexTurnState.proc 1).instructions.getD
      (mutexTurnState.proc 1).pcb.program_counter [])).arg1 = some "file".toList ∧
    (mutexTurnState.proc 1).pcb.program_counter = 0 ∧
    mutexTurnState.blockedQueue.contents = [] := by
  decide

/-- Witness for C3: the second process of `scenarioMutex` (pointer 1) runs `semWait file`
while the first holds the lock. -/
theorem executeSemWait_post_witness :
    mutexOf mutexTurnState "file".toList = some 0 ∧
    ((executeSemWait mutexTurnState 1 (some "file".toList)).proc 1).pcb.process_state
      = ProcessState.BLOCKED ∧
    (executeSemWait mutexTurnState 1 (some "file".toList)).blockedQueue.contents = [1] :=
  ⟨mutexTurnState_facts.2.2.2.2.2.2.2.1,
   ((executeSemWait_post mutexTurnState 1 "file".toList (Or.inr (Or.inl rfl))
      mutexTurnState_facts.1
      ⟨mutexTurnState_facts.2.2.1, mutexTurnState_facts.2.2.2.1,
       mutexTurnState_facts.2.2.2.2.1, mutexTurnState_facts.2.2.2.2.2.1,
       mutexTurnState_facts.2.2.2.2.2.2.1⟩).2 mutexTurnState_facts.2.2.2.2.2.2.2.1).1,
   (((executeSemWait_post mutexTurnState 1 "file".toList (Or.inr (Or.inl rfl))
      mutexTurnState_facts.1
      ⟨mutexTurnState_facts.2.2.1, mutexTurnState_facts.2.2.2.1,
       mutexTurnState_facts.2.2.2.2.1, mutexTurnState_facts.2.2.2.2.2.1,
       mutexTurnState_facts.2.2.2.2.2.2.1⟩).2
        mutexTurnState_facts.2.2.2.2.2.2.2.1).2.2.1 (by decide)).trans
     (by rw [mutexTurnState_facts.2.2.2.2.2.2.2.2.2.2.2]; rfl)⟩

set_option maxRecDepth 100000 in
/-- C10: a blocking `semWait` leaves the program counter where it is.  In `scenarioMutex`
the second process (pointer 1, id 2) runs `semWait file` at program counter 0 while the
lock is held; the turn leaves it `BLOCKED` with program counter 1, not 0, and with the
slot of the `semWait` cleared.  After its wake-up its next turn, taken while the lock is
held again by the first process, does not retry the `semWait`: it runs the `print x` of
slot 1. -/
theorem blocking_semWait_moves_pc :
    (tokenize ((mutexTurnState.proc 1).instructions.getD
      (mutexTurnState.proc 1).pcb.program_counter [])).instruction = some "semWait".toList ∧
    (tokenize ((mutexTurnState.proc 1).instructions.getD
      (mutexTurnState.proc 1).pcb.program_counter [])).arg1 = some "file".toList ∧
    mutexTurnState.file_mutex = 0 ∧
    (mutexTurnState.proc 1).pcb.program_counter = 0 ∧
    ((executeProcess mutexTurnState 1).proc 1).pcb.process_state = ProcessState.BLOCKED ∧
    ((executeProcess mutexTurnState 1).proc 1).pcb.program_counter = 1 ∧
    ((executeProcess mutexTurnState 1).proc 1).pcb.program_counter
      ≠ (mutexTurnState.proc 1).pcb.program_counter ∧
    ((executeProcess mutexTurnState 1).proc 1).instructions.getD 0 [] = [] ∧
    ((run 3 scenarioMutex).os.proc 1).pcb.program_counter = 1 ∧
    (dequeue (run 5 scenarioMutex).os.readyQueue).1 = some 1 ∧
    ((run 5 scenarioMutex).os.proc 1).pcb.process_state = ProcessState.READY ∧
    (run 5 scenarioMutex).os.file_mutex = 0 ∧
    (run 6 scenarioMutex).os.out.filter
        (fun e => match e with
          | Event.executing _ 2 _ => true
          | _ => false)
      = [Event.executing (ln "semWait file") 2 1, Event.executing (ln "print x") 2 4] := by
  decide

set_option maxRecDepth 100000 in
theorem herdSignalState_facts :
    herdSignalState.blockedQueue.processes.length = MAX_PROCESSES ∧
    herdSignalState.blockedQueue.front < MAX_PROCESSES ∧
    herdSignalState.blockedQueue.size ≤ MAX_PROCESSES ∧
    -1 ≤ herdSignalState.blockedQueue.rear ∧
    (herdSignalState.blockedQueue.rear + 1) % 10
      = ((herdSignalState.blockedQueue.front + herdSignalState.blockedQueue.size : Nat) : Int)
          % 10 ∧
    herdSignalState.readyQueue.processes.length = MAX_PROCESSES ∧
    herdSignalState.readyQueue.front < MAX_PROCESSES ∧
    herdSignalState.readyQueue.size ≤ MAX_PROCESSES ∧
    -1 ≤ herdSignalState.readyQueue.rear ∧
    (herdSignalState.readyQueue.rear + 1) % 10
      = ((herdSignalState.readyQueue.front + herdSignalState.readyQueue.size : Nat) : Int)
          % 10 ∧
    (∀ p ∈ herdSignalState.blockedQueue.contents, p < herdSignalState.heap.length) ∧
    waiters herdSignalState "file".toList = [1, 2] ∧
    otherWaiters herdSignalState "file".toList = [] ∧
    herdSignalState.readyQueue.contents = [0, 0, 0, 0, 0, 0, 0, 0, 0] ∧
    herdSignalState.readyQueue.size = 9 := by
  decide

/-- Witness for C4: the `semSignal file` of `scenarioHerd`, with two waiters for `file` in
the blocked queue. -/
theorem executeSemSignal_blocked_side_witness :
    waiters herdSignalState "file".toList = [1, 2] ∧
    mutexOf (executeSemSignal herdSignalState (some "file".toList)) "file".toList = some 1 ∧
    (executeSemSignal herdSignalState (some "file".toList)).blockedQueue.contents = [] :=
  ⟨herdSignalState_facts.2.2.2.2.2.2.2.2.2.2.2.1,
   (executeSemSignal_blocked_side herdSignalState "file".toList (Or.inr (Or.inl rfl))
      ⟨herdSignalState_facts.1, herdSignalState_facts.2.1, herdSignalState_facts.2.2.1,
       herdSignalState_facts.2.2.2.1, herdSignalState_facts.2.2.2.2.1⟩
      herdSignalState_facts.2.2.2.2.2.2.2.2.2.2.1).1,
   (executeSemSignal_blocked_side herdSignalState "file".toList (Or.inr (Or.inl rfl))
      ⟨herdSignalState_facts.1, herdSignalState_facts.2.1, herdSignalState_facts.2.2.1,
       herdSignalState_facts.2.2.2.1, herdSignalState_facts.2.2.2.2.1⟩
      herdSignalState_facts.2.2.2.2.2.2.2.2.2.2.1).2.1.trans
     herdSignalState_facts.2.2.2.2.2.2.2.2.2.2.2.2.1⟩

set_option maxRecDepth 100000 in
/-- C5 counterexample: the `semSignal file` of `scenarioHerd` is called with nine entries in
the ready queue and two waiters for `file` in the blocked queue, the second and the third
process (pointers 1 and 2).  Afterwards the ready queue holds the nine entries followed by
pointer 1 only: the third process is `READY` but in neither queue, and when the run has
exited it is still `READY` at program counter 1 with its `print` not executed. -/
theorem wake_all_overflow_loses_waiter :
    (tokenize ((herdSignalState.proc 0).instructions.getD
      (herdSignalState.proc 0).pcb.program_counter [])).instruction
        = some "semSignal".toList ∧
    herdSignalState.readyQueue.contents = [0, 0, 0, 0, 0, 0, 0, 0, 0] ∧
    waiters herdSignalState "file".toList = [1, 2] ∧
    (executeSemSignal herdSignalState (some "file".toList)).readyQueue.contents
      = [0, 0, 0, 0, 0, 0, 0, 0, 0, 1] ∧
    (executeSemSignal herdSignalState (some "file".toList)).readyQueue.contents
      ≠ herdSignalState.readyQueue.contents ++ waiters herdSignalState "file".toList ∧
    2 ∉ (executeSemSignal herdSignalState (some "file".toList)).readyQueue.contents ∧
    2 ∉ (executeSemSignal herdSignalState (some "file".toList)).blockedQueue.contents ∧
    ((executeSemSignal herdSignalState (some "file".toList)).proc 2).pcb.process_state
      = ProcessState.READY ∧
    (run 13 scenarioHerd).os.readyQueue.contents = [0, 0, 0, 0, 0, 0, 0, 0, 0, 1] ∧
    (run 26 scenarioHerd).loc = Loc.exited ∧
    ((run 26 scenarioHerd).os.proc 2).pcb.process_state = ProcessState.READY ∧
    ((run 26 scenarioHerd).os.proc 2).pcb.program_counter = 1 ∧
    ((run 26 scenarioHerd).os.proc 2).instructions.getD 1 [] = ln "print x" := by
  decide

set_option maxRecDepth 100000 in
theorem mutexSignal_facts :
    (run 3 scenarioMutex).os.blockedQueue.processes.length = MAX_PROCESSES ∧
    (run 3 scenarioMutex).os.blockedQueue.front < MAX_PROCESSES ∧
    (run 3 scenarioMutex).os.blockedQueue.size ≤ MAX_PROCESSES ∧
    -1 ≤ (run 3 scenarioMutex).os.blockedQueue.rear ∧
    ((run 3 scenarioMutex).os.blockedQueue.rear + 1) % 10
      = (((run 3 scenarioMutex).os.blockedQueue.front
          + (run 3 scenarioMutex).os.blockedQueue.size : Nat) : Int) % 10 ∧
    (run 3 scenarioMutex).os.readyQueue.processes.length = MAX_PROCESSES ∧
    (run 3 scenarioMutex).os.readyQueue.front < MAX_PROCESSES ∧
    (run 3 scenarioMutex).os.readyQueue.size ≤ MAX_PROCESSES ∧
    -1 ≤ (run 3 scenarioMutex).os.readyQueue.rear ∧
    ((run 3 scenarioMutex).os.readyQueue.rear + 1) % 10
      = (((run 3 scenarioMutex).os.readyQueue.front
          + (run 3 scenarioMutex).os.readyQueue.size : Nat) : Int) % 10 ∧
    (run 3 scenarioMutex).os.readyQueue.size
      + (waiters (run 3 scenarioMutex).os "file".toList).length ≤ 10 ∧
    (run 3 scenarioMutex).os.readyQueue.contents = [0, 0] ∧
    waiters (run 3 scenarioMutex).os "file".toList = [1] := by
  decide

/-- Witness for C5 (amended): `semSignal file` in `scenarioMutex` after three steps, with
two entries in the ready queue and one waiter. -/
theorem executeSemSignal_ready_side_witness :
    (executeSemSignal (run 3 scenarioMutex).os (some "file".toList)).readyQueue.contents
      = [0, 0, 1] :=
  (((executeSemSignal_ready_side (run 3 scenarioMutex).os "file".toList
      ⟨mutexSignal_facts.1, mutexSignal_facts.2.1, mutexSignal_facts.2.2.1,
       mutexSignal_facts.2.2.2.1, mutexSignal_facts.2.2.2.2.1⟩
      ⟨mutexSignal_facts.2.2.2.2.2.1, mutexSignal_facts.2.2.2.2.2.2.1,
       mutexSignal_facts.2.2.2.2.2.2.2.1, mutexSignal_facts.2.2.2.2.2.2.2.2.1,
       mutexSignal_facts.2.2.2.2.2.2.2.2.2.1⟩).2
        mutexSignal_facts.2.2.2.2.2.2.2.2.2.2.1).1).trans
    (by rw [mutexSignal_facts.2.2.2.2.2.2.2.2.2.2.2.1, mutexSignal_facts.2.2.2.2.2.2.2.2.2.2.2.2]; rfl)

/-! ## Queue membership, the storage unit and the variable store -/

set_option maxRecDepth 100000 in
/-- C11: ready and blocked queue disjoint.  After four steps of `scenarioDeadlock`, between
two interpreter turns, the first process (pointer 0) is in the blocked queue, having blocked
on `semWait userInput`, and still has an entry in the ready queue: the second entry that its
first turn left there (`executeProcess` and `main` both enqueued it). -/
theorem ready_and_blocked_overlap :
    (run 4 scenarioDeadlock).loc = Loc.innerHead ∧
    (run 4 scenarioDeadlock).os.fault = none ∧
    executions (run 4 scenarioDeadlock).os.out = [1, 2, 1] ∧
    (run 2 scenarioDeadlock).os.readyQueue.contents = [1, 0, 0] ∧
    (run 4 scenarioDeadlock).os.readyQueue.contents = [0, 1, 1] ∧
    (run 4 scenarioDeadlock).os.blockedQueue.contents = [0] ∧
    ((run 4 scenarioDeadlock).os.proc 0).pcb.process_state = ProcessState.BLOCKED ∧
    0 ∈ (run 4 scenarioDeadlock).os.readyQueue.contents ∧
    0 ∈ (run 4 scenarioDeadlock).os.blockedQueue.contents := by
  decide

set_option maxRecDepth 100000 in
/-- C12: removal of a finished process from the storage unit.  In `scenarioStorage` the first
process finishes on its first turn while the storage unit holds the three processes
(pointers 0, 1, 2), each once.  After the routing step the storage unit holds pointer 1
only: the third process, which is `READY` and not finished, is no longer tracked.  The
transfer loop of lines 536-538 reads `tempQueue.size` again on every iteration while it
dequeues from `tempQueue`, so it stops after one of the two entries. -/
theorem finished_removal_loses_process :
    (storageRouteState.proc 0).pcb.process_state = ProcessState.FINISHED ∧
    storageRouteState.fault = none ∧
    storageRouteState.storageQueue.contents = [0, 1, 2] ∧
    (route storageRouteState 0).storageQueue.contents = [1] ∧
    (route storageRouteState 0).storageQueue.contents ≠ [1, 2] ∧
    2 ∉ (route storageRouteState 0).storageQueue.contents ∧
    ((route storageRouteState 0).proc 2).pcb.process_state = ProcessState.READY ∧
    (run 2 scenarioStorage).os.storageQueue.contents = [1] ∧
    (run 2 scenarioStorage).os.readyQueue.contents = [1, 2] := by
  decide

set_option maxRecDepth 100000 in
/-- C14: a lookup leaves the binding in place.  In `scenarioPrintTwice` the process assigns
x = 5 and prints x twice with nothing in between: the first `print x` outputs 5, the second
reports that x is not found.  The `strtok` call of `retrieveVariable` has overwritten the
`=` of the slot with NUL, so the slot reads `x` and the second lookup finds the name but
no value token. -/
theorem second_print_not_found :
    (run 6 scenarioPrintTwice).os.fault = none ∧
    (run 6 scenarioPrintTwice).os.out =
      [Event.arrived 1 0,
       Event.executing (ln "assign x 5") 1 0,
       Event.executing (ln "print x") 1 1,
       Event.printed "5".toList,
       Event.executing (ln "print x") 1 2,
       Event.variableNotFound (some "x".toList),
       Event.finished 1] ∧
    ((run 2 scenarioPrintTwice).os.proc 0).vars = ["x=5".toList, [], []] ∧
    ((run 3 scenarioPrintTwice).os.proc 0).vars = [['x', NUL, '5'], [], []] := by
  decide

set_option maxRecDepth 100000 in
/-- C15: assignment touches the assigned name only.  In `scenarioShadow` the process binds
xy to 3, which a lookup of xy confirms, and then assigns x = 1: `storeVariables` overwrites
the slot of xy, whose string starts with `x` (the `strncmp` over `strlen(variable)`
characters), so that xy is no longer bound and `print xy` reports it as not found. -/
theorem assignment_overwrites_longer_name :
    ((run 2 scenarioShadow).os.proc 0).vars = ["xy=3".toList, [], []] ∧
    (retrieveVariableLoop (some "xy".toList) MAX_VARIABLES_PER_PROCESS 0
      ((run 2 scenarioShadow).os.proc 0).vars).1 = some "3".toList ∧
    (storeVariables ((run 2 scenarioShadow).os.proc 0) "x".toList "1".toList).vars
      = ["x=1".toList, [], []] ∧
    (retrieveVariableLoop (some "xy".toList) MAX_VARIABLES_PER_PROCESS 0
      (storeVariables ((run 2 scenarioShadow).os.proc 0) "x".toList "1".toList).vars).1
      = none ∧
    (run 6 scenarioShadow).os.fault = none ∧
    (run 6 scenarioShadow).os.out =
      [Event.arrived 1 0,
       Event.executing (ln "assign xy 3") 1 0,
       Event.executing (ln "assign x 1") 1 1,
       Event.executing (ln "print xy") 1 2,
       Event.variableNotFound (some "xy".toList),
       Event.finished 1] := by
  decide

set_option maxRecDepth 100000 in
/-- C16: `printFromTo` on bound variables.  With a = 1 and b = 3 bound, `printFromTo b b`
emits the error `Variables not found` instead of the single integer 3; with a = 3 in the
first slot and b = 1 in the second, `printFromTo b a` emits the error instead of 1 2 3.  In
both runs the first lookup cuts the slot that the second lookup needs (the `strtok` call of
`retrieveVariable`). -/
theorem printFromTo_bound_names_error :
    (run 6 scenarioRangeSame).os.fault = none ∧
    ((run 3 scenarioRangeSame).os.proc 0).vars = ["a=1".toList, "b=3".toList, []] ∧
    (run 6 scenarioRangeSame).os.out =
      [Event.arrived 1 0,
       Event.executing (ln "assign a 1") 1 0,
       Event.executing (ln "assign b 3") 1 1,
       Event.executing (ln "printFromTo b b") 1 2,
       Event.variablesNotFound,
       Event.finished 1] ∧
    (run 6 scenarioRangeOrder).os.fault = none ∧
    ((run 3 scenarioRangeOrder).os.proc 0).vars = ["a=3".toList, "b=1".toList, []] ∧
    (run 6 scenarioRangeOrder).os.out =
      [Event.arrived 1 0,
       Event.executing (ln "assign a 3") 1 0,
       Event.executing (ln "assign b 1") 1 1,
       Event.executing (ln "printFromTo b a") 1 2,
       Event.variablesNotFound,
       Event.finished 1] := by
  decide

set_option maxRecDepth 100000 in
/-- C20 counterexample: in the concrete scenario the main loop has exited after eight steps
with the clock at 3, not 4. -/
theorem concrete_scenario_clock_not_four :
    (run 8 scenarioAB).loc = Loc.exited ∧
    (run 8 scenarioAB).os.clockCycles ≠ 4 := by
  decide

/-- C20, amended: in the concrete scenario the value of the global clock when the main loop
exits is 3, one tick for each of the three executed instructions: the loop is still running
after seven steps, has exited after eight, and from then on the clock stays at 3. -/
theorem concrete_scenario_clock :
    (run 7 scenarioAB).loc ≠ Loc.exited ∧
    (∀ k, (run (8 + k) scenarioAB).loc = Loc.exited ∧
          (run (8 + k) scenarioAB).os.clockCycles = 3) := by
  obtain ⟨h7, h8, -, -, -, -, hc⟩ := scenarioAB_run
  refine ⟨h7, fun k => ?_⟩
  rw [run_add, run_exited k _ h8]
  exact ⟨h8, hc⟩

set_option maxRecDepth 1000000 in
/-- C17: the program counter of an unfinished process stays below `MEMORY_SIZE`.  In
`scenarioLastSlot` the second process (pointer 1) runs `semWait file` from its last slot, 59,
while `file` is locked: after 101 steps it is `BLOCKED` with program counter 60, because
the bound test of line 335 is made for a `RUNNING` process only.  After 127 steps the third
process has signalled `file`, and the second is `READY` in the ready queue with program
counter 60; at step 137 it takes its turn on slot 60, beyond the sixty slots, which in this
run holds no token, and the program stops on the `NULL` verb. -/
theorem program_counter_reaches_memory_size :
    (run 101 scenarioLastSlot).os.fault = none ∧
    ((run 100 scenarioLastSlot).os.proc 1).pcb.program_counter = 59 ∧
    ((run 101 scenarioLastSlot).os.proc 1).pcb.process_state = ProcessState.BLOCKED ∧
    ((run 101 scenarioLastSlot).os.proc 1).pcb.program_counter = MEMORY_SIZE ∧
    (run 127 scenarioLastSlot).os.fault = none ∧
    ((run 127 scenarioLastSlot).os.proc 1).pcb.process_state = ProcessState.READY ∧
    ((run 127 scenarioLastSlot).os.proc 1).pcb.program_counter = MEMORY_SIZE ∧
    1 ∈ (run 127 scenarioLastSlot).os.readyQueue.contents ∧
    ¬ ((run 127 scenarioLastSlot).os.proc 1).pcb.program_counter
        < ((run 127 scenarioLastSlot).os.proc 1).instructions.length ∧
    (run 136 scenarioLastSlot).os.fault = none ∧
    (run 137 scenarioLastSlot).os.fault = some Fault.nullDeref := by
  decide

/-! ## Effects of the interpreter turn -/

theorem setProc_length (s : OS) (p : Nat) (pr : Process) :
    (s.setProc p pr).heap.length = s.heap.length := by
  simp [OS.setProc]

theorem setRow_pcb (pr : Process) (i : Nat) (t : Text) : (pr.setRow i t).pcb = pr.pcb := by
  unfold Process.setRow
  split <;> rfl

/-- The four ways in which the end of the turn leaves the record of `p` and the ready
queue. -/
theorem finishTurn_cases (s : OS) (p : Nat) :
    ∃ pr : Process,
      pr.pcb.program_counter = (s.proc p).pcb.program_counter + 1 ∧
      pr.pcb.process_id = (s.proc p).pcb.process_id ∧
      pr.pcb.waiting_for_resource = (s.proc p).pcb.waiting_for_resource ∧
      (((s.proc p).pcb.process_state ≠ ProcessState.RUNNING ∧
          pr.pcb.process_state = (s.proc p).pcb.process_state ∧
          finishTurn s p = s.setProc p pr) ∨
       ((s.proc p).pcb.process_state = ProcessState.RUNNING ∧
          pr.pcb.process_state = ProcessState.FINISHED ∧
          finishTurn s p = s.setProc p pr) ∨
       ((s.proc p).pcb.process_state = ProcessState.RUNNING ∧
          pr.pcb.process_state = ProcessState.READY ∧
          finishTurn s p = s.setProc p pr) ∨
       ((s.proc p).pcb.process_state = ProcessState.RUNNING ∧
          pr.pcb.process_state = ProcessState.READY ∧
          finishTurn s p =
            { s.setProc p pr with readyQueue := enqueue (s.setProc p pr).readyQueue p })) := by
  unfold finishTurn
  simp only []
  by_cases hrun : (s.proc p).pcb.process_state = ProcessState.RUNNING
  · rw [if_pos hrun]
    by_cases hfin : (decide ((s.proc p).pcb.program_counter + 1 ≥ MEMORY_SIZE) ||
        decide ((cstr ((if (cstr ((s.proc p).row (s.proc p).pcb.program_counter)).length > 0
            then (s.proc p).setRow (s.proc p).pcb.program_counter []
            else s.proc p).row
          ((s.proc p).pcb.program_counter + 1))).length = 0)) = true
    · rw [if_pos hfin]
      refine ⟨_, ?_, ?_, ?_, Or.inr (Or.inl ⟨hrun, ?_, rfl⟩)⟩ <;> rfl
    · rw [if_neg hfin]
      by_cases hq : (s.proc p).pcb.cycles_remaining - 1 = 0
      · rw [if_pos hq]
        refine ⟨_, ?_, ?_, ?_, Or.inr (Or.inr (Or.inr ⟨hrun, ?_, rfl⟩))⟩ <;> rfl
      · rw [if_neg hq]
        refine ⟨_, ?_, ?_, ?_, Or.inr (Or.inr (Or.inl ⟨hrun, ?_, rfl⟩))⟩ <;> rfl
  · rw [if_neg hrun]
    refine ⟨_, ?_, ?_, ?_, Or.inl ⟨hrun, ?_, rfl⟩⟩ <;> rfl

theorem finishTurn_fault (s : OS) (p : Nat) :
    (finishTurn s p).fault = s.fault := by
  obtain ⟨pr, -, -, -, hc⟩ := finishTurn_cases s p
  rcases hc with ⟨-, -, h⟩ | ⟨-, -, h⟩ | ⟨-, -, h⟩ | ⟨-, -, h⟩ <;> rw [h] <;> rfl

/-! ## The scheduling view under the operations of the interpreter -/

theorem executions_append (l1 l2 : List Event) :
    executions (l1 ++ l2) = executions l1 ++ executions l2 := by
  induction l1 with
  | nil => rfl
  | cons e l1 ih => cases e <;> simp [executions, ih]

theorem view_emit (s : OS) (e : Event) :
    (s.emit e).view = { s.view with execs := s.view.execs ++ executions [e] } := by
  simp only [OS.view, OS.emit, executions_append]
  rfl

theorem view_emit_quiet (s : OS) (e : Event) (h : executions [e] = []) :
    (s.emit e).view = s.view := by
  rw [view_emit, h, List.append_nil]

theorem view_setProc (s : OS) (p : Nat) (pr : Process) :
    (s.setProc p pr).view = s.view.setPcb p pr.pcb := by
  have hpcb : (fun q => ((s.setProc p pr).proc q).pcb)
      = (fun q => if q = p ∧ p < s.heap.length then pr.pcb else (s.proc q).pcb) := by
    funext q
    by_cases hq : p = q
    · subst hq
      by_cases hlt : p < s.heap.length
      · rw [proc_setProc_self s p pr hlt, if_pos ⟨rfl, hlt⟩]
      · rw [proc_setProc_invalid s p p pr (by omega), if_neg (fun h => hlt h.2)]
    · rw [proc_setProc_ne s p q pr hq, if_neg (fun h => hq h.1.symm)]
  simp only [OS.view, View.setPcb, setProc_length, hpcb]
  rfl

theorem setPcb_same (v : View) (p : Nat) (pcb : PCB) (h : pcb = v.pcb p) :
    v.setPcb p pcb = v := by
  subst h
  have : (fun q => if q = p ∧ p < v.count then v.pcb p else v.pcb q) = v.pcb := by
    funext q
    by_cases hq : q = p ∧ p < v.count
    · rw [if_pos hq, hq.1]
    · rw [if_neg hq]
  simp only [View.setPcb, this]

theorem view_setProc_quiet (s : OS) (p : Nat) (pr : Process) (h : pr.pcb = (s.proc p).pcb) :
    (s.setProc p pr).view = s.view := by
  rw [view_setProc, setPcb_same _ _ _ h]

theorem view_retrieveVariable (s : OS) (p : Nat) (x : Option Text) :
    (retrieveVariable s p x).2.view = s.view := by
  unfold retrieveVariable
  simp only []
  split
  · exact view_setProc_quiet s p _ rfl
  · exact view_setProc_quiet s p _ rfl

theorem view_assignStore (s : OS) (p : Nat) (x : Option Text) (value : Text) :
    (assignStore s p x value).view = s.view := by
  unfold assignStore
  split
  · exact view_setProc_quiet s p _ rfl
  · rfl

theorem view_executePrint (s : OS) (p : Nat) (x : Option Text) :
    (executePrint s p x).view = s.view := by
  unfold executePrint
  simp only []
  split
  · exact view_retrieveVariable s p x
  · split <;> simp only [view_emit, executions, List.append_nil, view_retrieveVariable]

theorem view_fault (s : OS) (f : Option Fault) : ({ s with fault := f } : OS).view = s.view :=
  rfl

theorem view_executeReadFile (s : OS) (p : Nat) (x : Option Text) :
    (executeReadFile s p x).view = s.view := by
  unfold executeReadFile
  simp only []
  repeat' split
  all_goals simp only [view_fault, view_emit, executions, List.append_nil, view_retrieveVariable]

theorem view_executePrintFromTo (s : OS) (p : Nat) (x y : Option Text) :
    (executePrintFromTo s p x y).view = s.view := by
  unfold executePrintFromTo
  simp only []
  repeat' split
  all_goals simp only [view_fault, view_emit, executions, List.append_nil, view_retrieveVariable]

theorem view_executeWriteFile (s : OS) (p : Nat) (x y : Option Text) :
    (executeWriteFile s p x y).view = s.view := by
  unfold executeWriteFile
  simp only []
  repeat' split
  all_goals
    first
    | simp only [view_fault, view_emit, executions, List.append_nil, view_retrieveVariable]
    | (show (((retrieveVariable (retrieveVariable s p x).2 p y).2.emit _).view) = _
       simp only [view_emit, executions, List.append_nil, view_retrieveVariable])

theorem view_spillValue (s : OS) (p : Nat) (valueAt : Option Nat) (bytes : Text) :
    (spillValue s p valueAt bytes).view = s.view := by
  unfold spillValue
  split
  · rfl
  · simp only []
    split
    · rfl
    · exact view_setProc_quiet s p _ (setRow_pcb _ _ _)

theorem view_executeAssign (s : OS) (p : Nat) (x value : Option Text) (valueAt : Option Nat) :
    (executeAssign s p x value valueAt).view = s.view := by
  unfold executeAssign
  simp only []
  repeat' split
  all_goals
    first
    | rfl
    | (simp only [view_fault, view_emit, executions, List.append_nil, view_retrieveVariable,
        view_assignStore, view_spillValue]; done)
    | (rw [view_assignStore, view_spillValue]
       refine Eq.trans (b := (s.emit (Event.enterValue x)).view) rfl ?_
       simp only [view_emit, executions, List.append_nil])
    | (rw [view_assignStore]
       refine Eq.trans (b := (s.emit (Event.enterValue x)).view) rfl ?_
       simp only [view_emit, executions, List.append_nil])

theorem view_storage (s : OS) (q : ProcessQueue) :
    ({ s with storageQueue := q } : OS).view = s.view :=
  rfl

theorem view_sweepOutLoop (e n : Nat) (s : OS) (t : ProcessQueue) :
    (sweepOutLoop e n s t).1.view = s.view := by
  induction n generalizing s t with
  | zero => rfl
  | succ n ih =>
    rw [sweepOutLoop]
    split
    · rfl
    · simp only []
      rw [ih]
      split
      · refine Eq.trans (view_setProc_quiet _ _ _ (setRow_pcb _ _ _)) ?_
        rfl
      · rfl

theorem view_sweepBackLoop (n : Nat) (s : OS) (t : ProcessQueue) :
    (sweepBackLoop n s t).view = s.view := by
  induction n generalizing s t with
  | zero => rfl
  | succ n ih =>
    rw [sweepBackLoop]
    split
    · rfl
    · rw [ih]; rfl

theorem view_sweepStorage (s : OS) (e : Nat) : (sweepStorage s e).view = s.view := by
  unfold sweepStorage
  simp only []
  split
  · exact view_sweepOutLoop _ _ _ _
  · rw [view_sweepBackLoop]; exact view_sweepOutLoop _ _ _ _

theorem view_removeOutLoop (e n : Nat) (s : OS) (t : ProcessQueue) :
    (removeOutLoop e n s t).1.view = s.view := by
  induction n generalizing s t with
  | zero => rfl
  | succ n ih =>
    rw [removeOutLoop]
    split
    · rfl
    · simp only []
      split
      · rw [ih]; rfl
      · rw [ih]; rfl

theorem view_removeBackLoop (fuel k : Nat) (s : OS) (t : ProcessQueue) :
    (removeBackLoop fuel k s t).view = s.view := by
  induction fuel generalizing k s t with
  | zero => rfl
  | succ n ih =>
    rw [removeBackLoop]
    split
    · split
      · rfl
      · rw [ih]; rfl
    · rfl

theorem view_removeFinished (s : OS) (e : Nat) : (removeFinished s e).view = s.view := by
  unfold removeFinished
  simp only []
  split
  · rw [view_removeOutLoop]; simp only [view_emit, executions, List.append_nil]
  · rw [view_removeBackLoop, view_removeOutLoop]
    simp only [view_emit, executions, List.append_nil]

/-! ## The invariant under updates of the view -/

theorem good_setPcb (a : List Int) (v : View) (p : Nat) (pcb : PCB) (h : v.Good a)
    (hid : pcb.process_id = (v.pcb p).process_id)
    (hb : p ∈ v.blockedQueue.contents →
      pcb.process_state = ProcessState.BLOCKED ∧ Recognized pcb.waiting_for_resource) :
    (v.setPcb p pcb).Good a := by
  refine ⟨h.blocked_wf, h.ready_wf, ?_, ?_, h.count_ok⟩
  · intro q hq
    have hq' : q ∈ v.blockedQueue.contents := hq
    show ((if q = p ∧ p < v.count then pcb else v.pcb q).process_state = _ ∧
      Recognized (if q = p ∧ p < v.count then pcb else v.pcb q).waiting_for_resource)
    by_cases hc : q = p ∧ p < v.count
    · rw [if_pos hc]
      exact hb (hc.1 ▸ hq')
    · rw [if_neg hc]; exact h.blocked_ok q hq'
  · intro q hq
    show (if q = p ∧ p < v.count then pcb else v.pcb q).process_id = q + 1
    by_cases hc : q = p ∧ p < v.count
    · rw [if_pos hc, hid, ← hc.1]; exact h.pid_ok q hq
    · rw [if_neg hc]; exact h.pid_ok q hq

theorem good_enqueue_ready (a : List Int) (v : View) (x : Nat) (h : v.Good a) :
    View.Good a { v with readyQueue := enqueue v.readyQueue x } :=
  ⟨h.blocked_wf, enqueue_wf _ _ h.ready_wf, h.blocked_ok, h.pid_ok, h.count_ok⟩

theorem good_enqueue_blocked (a : List Int) (v : View) (x : Nat) (h : v.Good a)
    (hx : (v.pcb x).process_state = ProcessState.BLOCKED ∧
      Recognized (v.pcb x).waiting_for_resource) :
    View.Good a { v with blockedQueue := enqueue v.blockedQueue x } := by
  refine ⟨enqueue_wf _ _ h.blocked_wf, h.ready_wf, ?_, h.pid_ok, h.count_ok⟩
  intro q hq
  have hq' : q ∈ (enqueue v.blockedQueue x).contents := hq
  rw [enqueue_contents _ _ h.blocked_wf] at hq'
  split at hq'
  · rcases List.mem_append.mp hq' with h1 | h1
    · exact h.blocked_ok q h1
    · rw [List.mem_singleton.mp h1]; exact hx
  · exact h.blocked_ok q hq'

theorem good_dequeue_ready (a : List Int) (v : View) (h : v.Good a) :
    View.Good a { v with readyQueue := (dequeue v.readyQueue).2 } :=
  ⟨h.blocked_wf, dequeue_wf _ h.ready_wf, h.blocked_ok, h.pid_ok, h.count_ok⟩

theorem good_clock (a : List Int) (v : View) (c : Int) (h : v.Good a) :
    View.Good a { v with clockCycles := c } :=
  ⟨h.blocked_wf, h.ready_wf, h.blocked_ok, h.pid_ok, h.count_ok⟩

theorem good_execs (a : List Int) (v : View) (l : List Nat) (h : v.Good a) :
    View.Good a { v with execs := l } :=
  ⟨h.blocked_wf, h.ready_wf, h.blocked_ok, h.pid_ok, h.count_ok⟩

/-! ## The view under the operations that schedule -/

theorem view_beginTurn (s : OS) (p : Nat) :
    (beginTurn s p).view =
      { s.view.setPcb p { s.view.pcb p with process_state := ProcessState.RUNNING } with
        execs := s.view.execs ++ [(s.view.pcb p).process_id] } := by
  unfold beginTurn
  simp only []
  rw [view_emit, view_setProc, setRow_pcb]
  rfl

theorem view_blockProcess (s : OS) (p : Nat) (r : Text) :
    (blockProcess s p r).view =
      { s.view.setPcb p { s.view.pcb p with
            process_state := ProcessState.BLOCKED, waiting_for_resource := r } with
        blockedQueue := enqueue s.view.blockedQueue p } := by
  unfold blockProcess
  simp only []
  show ({ (s.setProc p _).view with blockedQueue := _ } : View) = _
  rw [view_setProc]
  rfl

theorem view_mutex (s : OS) (x y z : Nat) :
    ({ s with file_mutex := x, user_input_mutex := y, screen_output_mutex := z } : OS).view
      = s.view :=
  rfl

/-- The three kinds of instruction: one that leaves the scheduling view as it is, a
`semWait` that blocks the caller on a recognised resource, and a `semSignal`, which runs
`unblockProcesses` on a state with the same view. -/
theorem dispatch_kinds (s : OS) (p : Nat) (t : Tokens) :
    (dispatch s p t).view = s.view ∨
    (∃ r, Recognized r ∧ dispatch s p t = blockProcess s p r) ∨
    (∃ r s1, s1.view = s.view ∧ dispatch s p t = unblockProcesses s1 r) := by
  unfold dispatch
  split
  · exact Or.inl rfl
  · split
    · exact Or.inl (view_executePrint _ _ _)
    · split
      · split
        · exact Or.inl (view_executeAssign _ _ _ _ _)
        · exact Or.inl (view_executeAssign _ _ _ _ _)
      · split
        · exact Or.inl (view_executeWriteFile _ _ _ _)
        · split
          · exact Or.inl (view_executeReadFile _ _ _)
          · split
            · exact Or.inl (view_executePrintFromTo _ _ _ _)
            · split
              · unfold executeSemWait
                split
                · exact Or.inl rfl
                · split
                  · split
                    · exact Or.inr (Or.inl ⟨_, Or.inl ‹_›, rfl⟩)
                    · exact Or.inl rfl
                  · split
                    · split
                      · exact Or.inr (Or.inl ⟨_, Or.inr (Or.inl ‹_›), rfl⟩)
                      · exact Or.inl rfl
                    · split
                      · split
                        · exact Or.inr (Or.inl ⟨_, Or.inr (Or.inr ‹_›), rfl⟩)
                        · exact Or.inl rfl
                      · exact Or.inl rfl
              · split
                · unfold executeSemSignal
                  split
                  · exact Or.inl rfl
                  · refine Or.inr (Or.inr ⟨_, _, ?_, rfl⟩)
                    split
                    · rfl
                    · split
                      · rfl
                      · split <;> rfl
                · exact Or.inl (view_emit_quiet _ _ rfl)

theorem view_finishTurn (s : OS) (p : Nat) :
    ∃ pcb : PCB,
      pcb.process_id = (s.view.pcb p).process_id ∧
      pcb.waiting_for_resource = (s.view.pcb p).waiting_for_resource ∧
      (((s.view.pcb p).process_state ≠ ProcessState.RUNNING ∧
          pcb.process_state = (s.view.pcb p).process_state ∧
          (finishTurn s p).view = s.view.setPcb p pcb) ∨
       ((s.view.pcb p).process_state = ProcessState.RUNNING ∧
          pcb.process_state = ProcessState.FINISHED ∧
          (finishTurn s p).view = s.view.setPcb p pcb) ∨
       ((s.view.pcb p).process_state = ProcessState.RUNNING ∧
          pcb.process_state = ProcessState.READY ∧
          (finishTurn s p).view = s.view.setPcb p pcb) ∨
       ((s.view.pcb p).process_state = ProcessState.RUNNING ∧
          pcb.process_state = ProcessState.READY ∧
          (finishTurn s p).view =
            { s.view.setPcb p pcb with readyQueue := enqueue s.view.readyQueue p })) := by
  obtain ⟨pr, -, k3, k4, hc⟩ := finishTurn_cases s p
  refine ⟨pr.pcb, k3, k4, ?_⟩
  rcases hc with ⟨h1, h2, h3⟩ | ⟨h1, h2, h3⟩ | ⟨h1, h2, h3⟩ | ⟨h1, h2, h3⟩
  · exact Or.inl ⟨h1, h2, by rw [h3, view_setProc]⟩
  · exact Or.inr (Or.inl ⟨h1, h2, by rw [h3, view_setProc]⟩)
  · exact Or.inr (Or.inr (Or.inl ⟨h1, h2, by rw [h3, view_setProc]⟩))
  · refine Or.inr (Or.inr (Or.inr ⟨h1, h2, ?_⟩))
    rw [h3]
    show ({ (s.setProc p pr).view with readyQueue := _ } : View) = _
    rw [view_setProc]
    rfl

theorem pcb_chain (A B C : PCB)
    (h1 : A = B ∨ A = { B with process_state := ProcessState.READY })
    (h2 : B = C ∨ B = { C with process_state := ProcessState.READY }) :
    A = C ∨ A = { C with process_state := ProcessState.READY } := by
  rcases h1 with h1 | h1 <;> rcases h2 with h2 | h2 <;> subst h1 <;> subst h2
  · exact Or.inl rfl
  · exact Or.inr rfl
  · exact Or.inr rfl
  · exact Or.inr rfl

theorem unblockLoop_frame (r : Text) (n : Nat) : ∀ s : OS,
    (unblockLoop r n s).clockCycles = s.clockCycles ∧
    (unblockLoop r n s).out = s.out ∧
    ∀ q, ((unblockLoop r n s).proc q).pcb = (s.proc q).pcb ∨
      ((unblockLoop r n s).proc q).pcb
        = { (s.proc q).pcb with process_state := ProcessState.READY } := by
  induction n with
  | zero => intro s; exact ⟨rfl, rfl, fun _ => Or.inl rfl⟩
  | succ n ih =>
    intro s
    cases hdq : (dequeue s.blockedQueue).1 with
    | none =>
      have hE : unblockLoop r (n + 1) s = { s with fault := some Fault.nullDeref } := by
        rw [unblockLoop]; simp only [hdq]
      rw [hE]
      exact ⟨rfl, rfl, fun _ => Or.inl rfl⟩
    | some p =>
      by_cases hm : (s.proc p).pcb.waiting_for_resource = r
      · rw [unblockLoop_succ_match r n s p hdq hm]
        obtain ⟨j1, j2, j3⟩ := ih
          { s with
            heap := s.heap.set p ((s.proc p).setState ProcessState.READY)
            blockedQueue := (dequeue s.blockedQueue).2
            readyQueue := enqueue s.readyQueue p }
        refine ⟨j1, j2, fun q => pcb_chain _ _ _ (j3 q) ?_⟩
        show ((s.setProc p ((s.proc p).setState ProcessState.READY)).proc q).pcb = _ ∨
          ((s.setProc p ((s.proc p).setState ProcessState.READY)).proc q).pcb = _
        by_cases hpq : p = q
        · subst hpq
          by_cases hlt : p < s.heap.length
          · rw [proc_setProc_self s p _ hlt]; exact Or.inr rfl
          · rw [proc_setProc_invalid s p p _ (by omega)]; exact Or.inl rfl
        · rw [proc_setProc_ne s p q _ hpq]; exact Or.inl rfl
      · rw [unblockLoop_succ_keep r n s p hdq hm]
        exact ih _

theorem unblock_view (a : List Int) (s : OS) (r : Text) (hg : s.view.Good a) :
    (unblockProcesses s r).view.Good a ∧
    (unblockProcesses s r).view.clockCycles = s.view.clockCycles ∧
    (unblockProcesses s r).view.count = s.view.count ∧
    (∀ q, q ∉ s.view.blockedQueue.contents →
      (unblockProcesses s r).view.pcb q = s.view.pcb q) := by
  obtain ⟨i1, i2, -, -, -, -, i7, -, -, i10, i11⟩ :=
    unblockLoop_spec r (fun q => (s.proc q).pcb.waiting_for_resource) s.blockedQueue.size s
      s.blockedQueue.contents [] hg.blocked_wf (by simp) (contents_length _) (fun _ => rfl)
  obtain ⟨j1, -⟩ := i11 hg.ready_wf
  obtain ⟨f1, -, f3⟩ := unblockLoop_frame r s.blockedQueue.size s
  simp only [List.nil_append] at i2
  have hsame : ∀ q, q ∉ s.blockedQueue.contents →
      (unblockLoop r s.blockedQueue.size s).proc q = s.proc q :=
    fun q hq => i10 q (fun h => hq h.1)
  unfold unblockProcesses
  refine ⟨⟨i1, j1, ?_, ?_, ?_⟩, f1, i7, ?_⟩
  · intro q hq
    have hq' : q ∈ (unblockLoop r s.blockedQueue.size s).blockedQueue.contents := hq
    rw [i2] at hq'
    obtain ⟨hq1, hq2⟩ := List.mem_filter.mp hq'
    have hp := i10 q (fun h => by simp [h.2] at hq2)
    show ((unblockLoop r s.blockedQueue.size s).proc q).pcb.process_state = _ ∧
      Recognized ((unblockLoop r s.blockedQueue.size s).proc q).pcb.waiting_for_resource
    rw [hp]
    exact hg.blocked_ok q hq1
  · intro q hq
    have hq' : q < s.view.count := by
      show q < s.heap.length
      rw [← i7]; exact hq
    show ((unblockLoop r s.blockedQueue.size s).proc q).pcb.process_id = q + 1
    rcases f3 q with h1 | h1 <;> rw [h1] <;> exact hg.pid_ok q hq'
  · show a.length = (unblockLoop r s.blockedQueue.size s).heap.length
    rw [i7]; exact hg.count_ok
  · intro q hq
    show ((unblockLoop r s.blockedQueue.size s).proc q).pcb = (s.proc q).pcb
    rw [hsame q hq]

/-! ## The invariant across an interpreter turn -/

theorem after_refl (a : List Int) (v : View) (h : v.Good a) : View.After a v v :=
  ⟨h, rfl, rfl⟩

theorem after_setPcb (a : List Int) (p : Nat) (v0 v : View) (pcb : PCB)
    (h : View.After a v0 v) (hid : pcb.process_id = (v.pcb p).process_id)
    (hb : p ∈ v.blockedQueue.contents →
      pcb.process_state = ProcessState.BLOCKED ∧ Recognized pcb.waiting_for_resource) :
    View.After a v0 (v.setPcb p pcb) :=
  ⟨good_setPcb a v p pcb h.good hid hb, h.clock, h.count⟩

theorem after_enqueue_ready (a : List Int) (p : Nat) (v0 v : View)
    (h : View.After a v0 v) :
    View.After a v0 { v with readyQueue := enqueue v.readyQueue p } :=
  ⟨good_enqueue_ready a v p h.good, h.clock, h.count⟩

theorem after_enqueue_blocked (a : List Int) (p : Nat) (v0 v : View)
    (h : View.After a v0 v)
    (hx : (v.pcb p).process_state = ProcessState.BLOCKED ∧
      Recognized (v.pcb p).waiting_for_resource) :
    View.After a v0 { v with blockedQueue := enqueue v.blockedQueue p } :=
  ⟨good_enqueue_blocked a v p h.good hx, h.clock, h.count⟩

theorem after_execs (a : List Int) (l : List Nat) (v0 v : View)
    (h : View.After a v0 v) :
    View.After a v0 { v with execs := l } :=
  ⟨good_execs a v _ h.good, h.clock, h.count⟩

theorem after_unblock (a : List Int) (v0 : View) (s : OS) (r : Text)
    (h : View.After a v0 s.view) :
    View.After a v0 (unblockProcesses s r).view := by
  obtain ⟨u1, u2, u3, -⟩ := unblock_view a s r h.good
  exact ⟨u1, u2.trans h.clock, u3.trans h.count⟩

theorem setPcb_pcb_self (v : View) (p : Nat) (pcb : PCB) (hp : p < v.count) :
    (v.setPcb p pcb).pcb p = pcb := by
  show (if p = p ∧ p < v.count then pcb else v.pcb p) = pcb
  rw [if_pos ⟨rfl, hp⟩]

theorem dispatch_after (a : List Int) (p : Nat) (v0 : View) (s : OS) (t : Tokens)
    (h : View.After a v0 s.view) (hp : p < s.view.count) :
    View.After a v0 (dispatch s p t).view := by
  rcases dispatch_kinds s p t with hq | ⟨r, hr, hE⟩ | ⟨r, s1, hv, hE⟩
  · rw [hq]
    exact h
  · rw [hE, view_blockProcess]
    have h1 := after_setPcb a p v0 s.view
      { s.view.pcb p with process_state := ProcessState.BLOCKED, waiting_for_resource := r }
      h rfl (fun _ => ⟨rfl, hr⟩)
    have hself := setPcb_pcb_self s.view p
      { s.view.pcb p with process_state := ProcessState.BLOCKED, waiting_for_resource := r } hp
    refine after_enqueue_blocked a p v0 _ h1 ?_
    rw [hself]; exact ⟨rfl, hr⟩
  · rw [hE]
    have h' : View.After a v0 s1.view := by rw [hv]; exact h
    exact after_unblock a v0 s1 r h'

/-- A turn of a `READY` process keeps the invariant. -/
theorem exec_after (a : List Int) (s : OS) (p : Nat) (hg : s.view.Good a)
    (hp : p < s.heap.length)
    (hst : (s.view.pcb p).process_state = ProcessState.READY) :
    View.After a s.view (executeProcess s p).view := by
  have hnb : p ∉ s.view.blockedQueue.contents := by
    intro hmem
    have := (hg.blocked_ok p hmem).1
    rw [hst] at this
    exact ProcessState.noConfusion this
  -- the start of the turn
  have h1 : View.After a s.view (beginTurn s p).view := by
    rw [view_beginTurn s p]
    exact after_execs a _ s.view _
      (after_setPcb a p s.view s.view _ (after_refl a s.view hg) rfl
        (fun hmem => absurd hmem hnb))
  have hp1 : p < (beginTurn s p).view.count := by rw [h1.count]; exact hp
  -- the instruction
  have h2 := dispatch_after a p s.view (beginTurn s p)
    (tokenize ((s.proc p).row (s.proc p).pcb.program_counter)) h1 hp1
  unfold executeProcess
  simp only []
  split
  · exact h2
  · obtain ⟨pcb, k1, k2, hc⟩ := view_finishTurn
      (dispatch (beginTurn s p) p
        (tokenize ((s.proc p).row (s.proc p).pcb.program_counter))) p
    have hb : ∀ st, pcb.process_state = st →
        ((dispatch (beginTurn s p) p
          (tokenize ((s.proc p).row (s.proc p).pcb.program_counter))).view.pcb
            p).process_state = ProcessState.RUNNING ∨
        st = ((dispatch (beginTurn s p) p
          (tokenize ((s.proc p).row (s.proc p).pcb.program_counter))).view.pcb
            p).process_state →
        p ∈ (dispatch (beginTurn s p) p
          (tokenize ((s.proc p).row
            (s.proc p).pcb.program_counter))).view.blockedQueue.contents →
        pcb.process_state = ProcessState.BLOCKED ∧ Recognized pcb.waiting_for_resource := by
      intro st hst' hor hmem
      obtain ⟨b1, b2⟩ := h2.good.blocked_ok p hmem
      rcases hor with hr | hr
      · rw [hr] at b1; exact ProcessState.noConfusion b1
      · rw [hst', hr, k2]; exact ⟨b1, b2⟩
    rcases hc with ⟨_, e2, e3⟩ | ⟨e1, e2, e3⟩ | ⟨e1, e2, e3⟩ | ⟨e1, e2, e3⟩
    · rw [e3]
      exact after_setPcb a p s.view _ pcb h2 k1 (hb _ rfl (Or.inr e2))
    · rw [e3]
      exact after_setPcb a p s.view _ pcb h2 k1 (hb _ rfl (Or.inl e1))
    · rw [e3]
      exact after_setPcb a p s.view _ pcb h2 k1 (hb _ rfl (Or.inl e1))
    · rw [e3]
      exact after_enqueue_ready a p s.view _
        (after_setPcb a p s.view _ pcb h2 k1 (hb _ rfl (Or.inl e1)))

/-! ## The invariant across the steps of `main` -/

theorem view_enqueueProcessToReadyQueue (s : OS) (i : Nat) :
    (enqueueProcessToReadyQueue s i).view
      = { s.view with readyQueue := enqueue s.view.readyQueue i } := by
  unfold enqueueProcessToReadyQueue
  split
  · rw [view_emit]
    simp only [executions, List.append_nil]
    rfl
  · rename_i hfull
    have : enqueue s.readyQueue i = s.readyQueue := by
      unfold enqueue
      rw [if_neg hfull]
    show s.view = { s.view with readyQueue := enqueue s.readyQueue i }
    rw [this]
    rfl

theorem arrivals_after (a : List Int) (n : Nat) : ∀ (i : Nat) (s : OS), s.view.Good a →
    (checkArrivalsLoop a n i s).view.Good a ∧
    (checkArrivalsLoop a n i s).view.count = s.view.count := by
  induction n with
  | zero => intro i s hg; exact ⟨hg, rfl⟩
  | succ n ih =>
    intro i s hg
    rw [checkArrivalsLoop]
    split
    · have hv : (enqueueProcessToReadyQueue
          { s with storageQueue := enqueue s.storageQueue i } i).view
          = { s.view with readyQueue := enqueue s.view.readyQueue i } :=
        view_enqueueProcessToReadyQueue _ i
      have hg1 : View.Good a { s.view with readyQueue := enqueue s.view.readyQueue i } :=
        good_enqueue_ready a s.view i hg
      obtain ⟨j1, j3⟩ := ih (i + 1) _ (hv ▸ hg1)
      rw [hv] at j3
      exact ⟨j1, j3⟩
    · exact ih (i + 1) s hg

theorem route_view (s : OS) (p : Nat) :
    (route s p).view = s.view ∨
    ((s.view.pcb p).process_state = ProcessState.READY ∧
      (route s p).view = { s.view with readyQueue := enqueue s.view.readyQueue p }) := by
  unfold route
  split
  · rename_i h
    exact Or.inr ⟨h, rfl⟩
  · split
    · split
      · exact Or.inl (view_removeFinished s p)
      · exact Or.inl rfl
    · exact Or.inl rfl

theorem proc_invalid (s : OS) (p : Nat) (h : s.heap.length ≤ p) : s.proc p = default := by
  simp [OS.proc, List.getElem?_eq_none h]

theorem ready_is_live (s : OS) (p : Nat)
    (h : (s.proc p).pcb.process_state = ProcessState.READY) : p < s.heap.length := by
  by_contra hlt
  rw [proc_invalid s p (by omega)] at h
  exact ProcessState.noConfusion h

theorem post_turn (a : List Int) (s2 : OS) (p : Nat) (hg : s2.view.Good a) :
    ((sweepStorage (checkArrivals a s2) p).view.Good a ∧
     (sweepStorage (checkArrivals a s2) p).view.count = s2.view.count) ∧
    ((route (sweepStorage (checkArrivals a s2) p) p).view.Good a ∧
     (route (sweepStorage (checkArrivals a s2) p) p).view.count = s2.view.count) := by
  obtain ⟨j1, j3⟩ := arrivals_after a a.length 0 s2 hg
  have hs4 : (sweepStorage (checkArrivals a s2) p).view
      = (checkArrivalsLoop a a.length 0 s2).view :=
    view_sweepStorage _ _
  have hgood : (sweepStorage (checkArrivals a s2) p).view.Good a := by
    rw [hs4]; exact j1
  have hcount : (sweepStorage (checkArrivals a s2) p).view.count = s2.view.count := by
    rw [hs4, j3]
  refine ⟨⟨hgood, hcount⟩, ?_⟩
  rcases route_view (sweepStorage (checkArrivals a s2) p) p with hr | ⟨-, hr⟩
  · rw [hr]; exact ⟨hgood, hcount⟩
  · rw [hr]
    exact ⟨good_enqueue_ready a _ p hgood, hcount⟩

theorem innerBody_inv (m : Sched) (h : m.Inv) :
    (innerBody m).Inv ∧ (innerBody m).arrival_times = m.arrival_times ∧
    (innerBody m).os.view.count = m.os.view.count := by
  have hg : m.os.view.Good m.arrival_times := h
  cases hdq : (dequeue m.os.readyQueue).1 with
  | none =>
    have hE : innerBody m = { m with os := { m.os with fault := some Fault.nullDeref } } := by
      unfold innerBody; simp only [hdq]
    rw [hE]
    exact ⟨hg, rfl, rfl⟩
  | some p =>
    have hgd : View.Good m.arrival_times
        ({ m.os with readyQueue := (dequeue m.os.readyQueue).2 } : OS).view :=
      good_dequeue_ready m.arrival_times m.os.view hg
    by_cases hst : (m.os.proc p).pcb.process_state = ProcessState.READY
    · have hp : p < m.os.heap.length := ready_is_live m.os p hst
      have hA := exec_after m.arrival_times
        { m.os with readyQueue := (dequeue m.os.readyQueue).2 } p hgd hp hst
      have hcount1 : (executeProcess { m.os with readyQueue := (dequeue m.os.readyQueue).2 }
          p).view.count = m.os.view.count := hA.count
      have hg2 : View.Good m.arrival_times
          ({ executeProcess { m.os with readyQueue := (dequeue m.os.readyQueue).2 } p with
             clockCycles := wrapInt ((executeProcess
               { m.os with readyQueue := (dequeue m.os.readyQueue).2 } p).clockCycles + 1) }
            : OS).view :=
        good_clock m.arrival_times _ _ hA.good
      obtain ⟨⟨t1, t3⟩, ⟨r1, r3⟩⟩ := post_turn m.arrival_times
        { executeProcess { m.os with readyQueue := (dequeue m.os.readyQueue).2 } p with
          clockCycles := wrapInt ((executeProcess
            { m.os with readyQueue := (dequeue m.os.readyQueue).2 } p).clockCycles + 1) } p hg2
      have hE : innerBody m =
          if (executeProcess { m.os with readyQueue := (dequeue m.os.readyQueue).2 } p
              ).fault.isSome then
            { m with
              os := executeProcess { m.os with readyQueue := (dequeue m.os.readyQueue).2 } p
              anyProcessActive := true }
          else if (sweepStorage (checkArrivals m.arrival_times
              { executeProcess { m.os with readyQueue := (dequeue m.os.readyQueue).2 } p with
                clockCycles := wrapInt ((executeProcess
                  { m.os with readyQueue := (dequeue m.os.readyQueue).2 } p).clockCycles + 1) })
              p).fault.isSome then
            { m with
              os := sweepStorage (checkArrivals m.arrival_times
                { executeProcess { m.os with readyQueue := (dequeue m.os.readyQueue).2 } p with
                  clockCycles := wrapInt ((executeProcess
                    { m.os with readyQueue := (dequeue m.os.readyQueue).2 } p).clockCycles + 1) })
                p
              anyProcessActive := true }
          else
            { m with
              os := route (sweepStorage (checkArrivals m.arrival_times
                { executeProcess { m.os with readyQueue := (dequeue m.os.readyQueue).2 } p with
                  clockCycles := wrapInt ((executeProcess
                    { m.os with readyQueue := (dequeue m.os.readyQueue).2 } p).clockCycles + 1) })
                p) p
              anyProcessActive := true } := by
        unfold innerBody
        simp only [hdq]
        rw [if_pos (by exact hst)]
      rw [hE]
      split
      · exact ⟨hA.good, rfl, hcount1⟩
      · split
        · exact ⟨t1, rfl, t3.trans hcount1⟩
        · exact ⟨r1, rfl, r3.trans hcount1⟩
    · have hE : innerBody m =
          { m with os := { m.os with readyQueue := (dequeue m.os.readyQueue).2 } } := by
        unfold innerBody
        simp only [hdq]
        rw [if_neg (by exact hst)]
      rw [hE]
      exact ⟨hgd, rfl, rfl⟩

theorem mainStep_inv (m : Sched) (h : m.Inv) :
    (mainStep m).Inv ∧ (mainStep m).arrival_times = m.arrival_times ∧
    (mainStep m).os.view.count = m.os.view.count := by
  have hsame : m.Inv ∧ m.arrival_times = m.arrival_times ∧
      m.os.view.count = m.os.view.count := ⟨h, rfl, rfl⟩
  have hg : m.os.view.Good m.arrival_times := h
  unfold mainStep
  split
  · exact hsame
  · split
    · -- the head of the outer loop
      obtain ⟨j1, j3⟩ := arrivals_after m.arrival_times m.arrival_times.length 0 m.os hg
      exact ⟨j1, rfl, j3⟩
    · split
      · exact innerBody_inv m h
      · split
        · refine ⟨?_, rfl, rfl⟩
          show (m.os.emit Event.allFinished).view.Good m.arrival_times
          rw [view_emit_quiet m.os Event.allFinished rfl]; exact hg
        · split
          · exact ⟨good_clock m.arrival_times m.os.view _ hg, rfl, rfl⟩
          · exact ⟨hg, rfl, rfl⟩
    · exact hsame

/-- The invariant holds after every number of steps of `main`. -/
theorem run_inv (n : Nat) : ∀ m : Sched, m.Inv →
    (run n m).Inv ∧ (run n m).arrival_times = m.arrival_times ∧
    (run n m).os.view.count = m.os.view.count := by
  induction n with
  | zero => intro m h; exact ⟨h, rfl, rfl⟩
  | succ n ih =>
    intro m h
    obtain ⟨s1, s2, s3⟩ := mainStep_inv m h
    obtain ⟨i1, i2, i3⟩ := ih (mainStep m) s1
    exact ⟨i1, i2.trans s2, i3.trans s3⟩

theorem boot_proc (args : List (Int × List Text)) (stdin : Text) (files : List (Text × Text))
    (unwritable : List Text) (q : Nat) (hq : q < args.length) :
    (boot args stdin files unwritable).os.proc q
      = newProcess q (args.getD q (0, [])).1 (args.getD q (0, [])).2 := by
  simp [boot, OS.proc, hq]

/-- The invariant holds when `main` enters its loop. -/
theorem boot_inv (args : List (Int × List Text)) (stdin : Text) (files : List (Text × Text))
    (unwritable : List Text) : (boot args stdin files unwritable).Inv := by
  have hlen : (boot args stdin files unwritable).os.heap.length = args.length := by
    simp [boot]
  have hwf : (initQueue zeroQueue).WF := initQueue_wf zeroQueue rfl
  refine ⟨hwf, hwf, ?_, ?_, ?_⟩
  · intro q hq
    have hq' : q ∈ (initQueue zeroQueue).contents := hq
    rw [initQueue_contents] at hq'
    simp at hq'
  · intro q hq
    have hq' : q < args.length := by rw [← hlen]; exact hq
    show ((boot args stdin files unwritable).os.proc q).pcb.process_id = q + 1
    rw [boot_proc args stdin files unwritable q hq']
    rfl
  · show (args.map (fun a => a.1)).length = (boot args stdin files unwritable).os.heap.length
    rw [hlen, List.length_map]

/-! ## Unrecognised resource names -/

theorem unrecognized_signal (a : List Int) (s : OS) (r : Text) (hg : s.view.Good a)
    (hr : ¬ Recognized r) :
    (executeSemSignal s (some r)).file_mutex = s.file_mutex ∧
    (executeSemSignal s (some r)).user_input_mutex = s.user_input_mutex ∧
    (executeSemSignal s (some r)).screen_output_mutex = s.screen_output_mutex ∧
    (∀ q, (executeSemSignal s (some r)).proc q = s.proc q) ∧
    (executeSemSignal s (some r)).blockedQueue.contents = s.blockedQueue.contents ∧
    (executeSemSignal s (some r)).readyQueue.contents = s.readyQueue.contents := by
  have h1 : r ≠ "userInput".toList := fun h => hr (Or.inl h)
  have h2 : r ≠ "file".toList := fun h => hr (Or.inr (Or.inl h))
  have h3 : r ≠ "userOutput".toList := fun h => hr (Or.inr (Or.inr h))
  have hE : executeSemSignal s (some r) = unblockLoop r s.blockedQueue.size s := by
    simp only [executeSemSignal, if_neg h1, if_neg h2, if_neg h3]
    rfl
  have hno : ∀ q ∈ s.blockedQueue.contents, (s.proc q).pcb.waiting_for_resource ≠ r := by
    intro q hq heq
    have := (hg.blocked_ok q hq).2
    rw [show (s.view.pcb q).waiting_for_resource = (s.proc q).pcb.waiting_for_resource from rfl,
      heq] at this
    exact hr this
  obtain ⟨-, i2, -, i4, i5, i6, -, -, -, i10, i11⟩ :=
    unblockLoop_spec r (fun q => (s.proc q).pcb.waiting_for_resource) s.blockedQueue.size s
      s.blockedQueue.contents [] hg.blocked_wf (by simp) (contents_length _) (fun _ => rfl)
  obtain ⟨-, j2⟩ := i11 hg.ready_wf
  have hf1 : s.blockedQueue.contents.filter
      (fun p => !decide ((s.proc p).pcb.waiting_for_resource = r)) = s.blockedQueue.contents :=
    List.filter_eq_self.mpr (fun q hq => by simp [hno q hq])
  have hf2 : s.blockedQueue.contents.filter
      (fun p => decide ((s.proc p).pcb.waiting_for_resource = r)) = [] :=
    List.filter_eq_nil_iff.mpr (fun q hq => by simp [hno q hq])
  rw [hE]
  refine ⟨i4, i5, i6, fun q => i10 q (fun h => hno q h.1 h.2), ?_, ?_⟩
  · rw [i2, hf1]; rfl
  · rw [j2, hf2]; rfl

theorem beginTurn_good (a : List Int) (s : OS) (p : Nat) (hg : s.view.Good a)
    (hst : (s.view.pcb p).process_state = ProcessState.READY) :
    (beginTurn s p).view.Good a := by
  have hnb : p ∉ s.view.blockedQueue.contents := by
    intro hmem
    have := (hg.blocked_ok p hmem).1
    rw [hst] at this
    exact ProcessState.noConfusion this
  rw [view_beginTurn s p]
  exact good_execs a _ _ (good_setPcb a s.view p _ hg rfl (fun hmem => absurd hmem hnb))

/-- C18: unrecognised resource names.  For a name `r` outside the three resource names,
`executeSemWait(p, r)` returns the state unchanged, whatever the state.  In every state
that the scheduler reaches between two steps, and in the state in which a turn of a `READY`
process `p` taken from there makes the call, `executeSemSignal(r)` leaves the three
mutexes, the record of every process (its state included), and the contents and order
of the blocked and of the ready queue unchanged. -/
theorem unrecognized_resource_noop (r : Text) (hr : ¬ Recognized r) :
    (∀ (s : OS) (p : Nat), executeSemWait s p (some r) = s) ∧
    (∀ (args : List (Int × List Text)) (stdin : Text) (files : List (Text × Text))
        (unwritable : List Text) (n : Nat),
      (executeSemSignal (run n (boot args stdin files unwritable)).os (some r)).file_mutex
        = (run n (boot args stdin files unwritable)).os.file_mutex ∧
      (executeSemSignal (run n (boot args stdin files unwritable)).os (some r)).user_input_mutex
        = (run n (boot args stdin files unwritable)).os.user_input_mutex ∧
      (executeSemSignal (run n (boot args stdin files unwritable)).os
          (some r)).screen_output_mutex
        = (run n (boot args stdin files unwritable)).os.screen_output_mutex ∧
      (∀ q, (executeSemSignal (run n (boot args stdin files unwritable)).os (some r)).proc q
        = (run n (boot args stdin files unwritable)).os.proc q) ∧
      (executeSemSignal (run n (boot args stdin files unwritable)).os
          (some r)).blockedQueue.contents
        = (run n (boot args stdin files unwritable)).os.blockedQueue.contents ∧
      (executeSemSignal (run n (boot args stdin files unwritable)).os
          (some r)).readyQueue.contents
        = (run n (boot args stdin files unwritable)).os.readyQueue.contents) ∧
    (∀ (args : List (Int × List Text)) (stdin : Text) (files : List (Text × Text))
        (unwritable : List Text) (n p : Nat),
      ((run n (boot args stdin files unwritable)).os.proc p).pcb.process_state
        = ProcessState.READY →
      (executeSemSignal (beginTurn
          { (run n (boot args stdin files unwritable)).os with
            readyQueue := (dequeue (run n (boot args stdin files unwritable)).os.readyQueue).2 }
          p) (some r)).file_mutex
        = (run n (boot args stdin files unwritable)).os.file_mutex ∧
      (executeSemSignal (beginTurn
          { (run n (boot args stdin files unwritable)).os with
            readyQueue := (dequeue (run n (boot args stdin files unwritable)).os.readyQueue).2 }
          p) (some r)).user_input_mutex
        = (run n (boot args stdin files unwritable)).os.user_input_mutex ∧
      (executeSemSignal (beginTurn
          { (run n (boot args stdin files unwritable)).os with
            readyQueue := (dequeue (run n (boot args stdin files unwritable)).os.readyQueue).2 }
          p) (some r)).screen_output_mutex
        = (run n (boot args stdin files unwritable)).os.screen_output_mutex ∧
      (∀ q, (executeSemSignal (beginTurn
          { (run n (boot args stdin files unwritable)).os with
            readyQueue := (dequeue (run n (boot args stdin files unwritable)).os.readyQueue).2 }
          p) (some r)).proc q
        = (beginTurn
          { (run n (boot args stdin files unwritable)).os with
            readyQueue := (dequeue (run n (boot args stdin files unwritable)).os.readyQueue).2 }
          p).proc q) ∧
      (executeSemSignal (beginTurn
          { (run n (boot args stdin files unwritable)).os with
            readyQueue := (dequeue (run n (boot args stdin files unwritable)).os.readyQueue).2 }
          p) (some r)).blockedQueue.contents
        = (run n (boot args stdin files unwritable)).os.blockedQueue.contents ∧
      (executeSemSignal (beginTurn
          { (run n (boot args stdin files unwritable)).os with
            readyQueue := (dequeue (run n (boot args stdin files unwritable)).os.readyQueue).2 }
          p) (some r)).readyQueue.contents
        = (dequeue (run n (boot args stdin files unwritable)).os.readyQueue).2.contents) := by
  have h1 : r ≠ "userInput".toList := fun h => hr (Or.inl h)
  have h2 : r ≠ "file".toList := fun h => hr (Or.inr (Or.inl h))
  have h3 : r ≠ "userOutput".toList := fun h => hr (Or.inr (Or.inr h))
  refine ⟨?_, ?_, ?_⟩
  · intro s p
    simp only [executeSemWait, if_neg h1, if_neg h2, if_neg h3]
  · intro args stdin files unwritable n
    obtain ⟨i1, -, -⟩ := run_inv n _ (boot_inv args stdin files unwritable)
    exact unrecognized_signal _ _ r i1 hr
  · intro args stdin files unwritable n p hst
    obtain ⟨i1, -, -⟩ := run_inv n _ (boot_inv args stdin files unwritable)
    have hgd := good_dequeue_ready _ _ i1
    have hgb := beginTurn_good _
      { (run n (boot args stdin files unwritable)).os with
        readyQueue := (dequeue (run n (boot args stdin files unwritable)).os.readyQueue).2 }
      p hgd hst
    exact unrecognized_signal _ _ r hgb hr

set_option maxRecDepth 100000 in
/-- Witness for C18: `semSignal printer` in the deadlocked scenario, where both processes
sit in the blocked queue, wakes nobody. -/
theorem unrecognized_resource_noop_witness :
    ¬ Recognized "printer".toList ∧
    (run 6 scenarioDeadlock).os.blockedQueue.contents = [0, 1] ∧
    (executeSemSignal (run 6 scenarioDeadlock).os (some "printer".toList)).blockedQueue.contents
      = (run 6 scenarioDeadlock).os.blockedQueue.contents :=
  ⟨by unfold Recognized; decide, by decide,
   ((unrecognized_resource_noop "printer".toList (by unfold Recognized; decide)).2.1
      [(0, [ln "semWait file", ln "semWait userInput", ln "semSignal userInput",
            ln "semSignal file"]),
       (0, [ln "semWait userInput", ln "semWait file", ln "semSignal file",
            ln "semSignal userInput"])] [] [] [] 6).2.2.2.2.1⟩

/-! ## The turn protocol and the quantum counter -/

set_option maxRecDepth 100000 in
/-- C21: the per-turn protocol of a turn that does not block.  In `scenarioLongInput` the
process is `READY` at program counter 0, its two lines stand in slots 0 and 1 and every
other slot is empty.  The operand `input` of its first line starts 9 characters into the
slot, so `fgets` has room for 91 characters there.  The turn on `assign x input` raises no
fault and leaves the process `READY` at program counter 1 with slot 0 cleared, but slot 1
no longer holds `print x`: it holds the last eight characters of the input line, and the
next turn reports them as an unknown instruction. -/
theorem long_input_overwrites_next_slot :
    (longInputTurnState.proc 0).pcb.process_state = ProcessState.READY ∧
    (longInputTurnState.proc 0).pcb.program_counter = 0 ∧
    (longInputTurnState.proc 0).instructions
      = ln "assign x input" :: ln "print x" :: List.replicate 58 [] ∧
    (tokenize (ln "assign x input")).arg2At = 9 ∧
    (executeProcess longInputTurnState 0).fault = none ∧
    ((executeProcess longInputTurnState 0).proc 0).pcb.process_state = ProcessState.READY ∧
    ((executeProcess longInputTurnState 0).proc 0).pcb.program_counter = 1 ∧
    ((executeProcess longInputTurnState 0).proc 0).instructions
      = [] :: (List.replicate 8 'a' ++ [NUL]) :: List.replicate 58 [] ∧
    (run 8 scenarioLongInput).loc = Loc.exited ∧
    (run 8 scenarioLongInput).os.out =
      [Event.arrived 1 0,
       Event.executing (ln "assign x input") 1 0,
       Event.enterValue (some "x".toList),
       Event.executing (List.replicate 8 'a' ++ [NUL]) 1 1,
       Event.unknownInstruction (List.replicate 8 'a'),
       Event.finished 1,
       Event.allFinished] := by
  decide

set_option maxRecDepth 100000 in
/-- C22: quantum accounting.  In `scenarioQuantum` the second process (pointer 1, id 2)
blocks on `semWait file` in its first turn and is woken by the first process.  After five
steps `main` stands at the head of its inner loop with that process `READY` at the head
of the ready queue, and the next step gives it a turn: its `cycles_remaining` is then 0,
not `TIME_QUANTUM`.  Its following turn starts with `cycles_remaining` equal to -1. -/
theorem woken_process_turn_without_quantum :
    ((run 3 scenarioQuantum).os.proc 1).pcb.process_state = ProcessState.BLOCKED ∧
    ((run 3 scenarioQuantum).os.proc 1).pcb.cycles_remaining = 0 ∧
    (run 5 scenarioQuantum).loc = Loc.innerHead ∧
    (run 5 scenarioQuantum).os.fault = none ∧
    (dequeue (run 5 scenarioQuantum).os.readyQueue).1 = some 1 ∧
    ((run 5 scenarioQuantum).os.proc 1).pcb.process_state = ProcessState.READY ∧
    ((run 5 scenarioQuantum).os.proc 1).pcb.cycles_remaining = 0 ∧
    ((run 5 scenarioQuantum).os.proc 1).pcb.cycles_remaining ≠ (TIME_QUANTUM : Int) ∧
    executions (run 6 scenarioQuantum).os.out
      = executions (run 5 scenarioQuantum).os.out ++ [2] ∧
    (run 6 scenarioQuantum).loc = Loc.innerHead ∧
    (dequeue (run 6 scenarioQuantum).os.readyQueue).1 = some 1 ∧
    ((run 6 scenarioQuantum).os.proc 1).pcb.process_state = ProcessState.READY ∧
    ((run 6 scenarioQuantum).os.proc 1).pcb.cycles_remaining = -1 ∧
    executions (run 7 scenarioQuantum).os.out
      = executions (run 6 scenarioQuantum).os.out ++ [2] := by
  decide

set_option maxRecDepth 1000000 in
/-- C19: unknown verbs.  In `scenarioLastSlotVar` the second process (pointer 1, id 2) has
assigned `x` the value 5, has blocked on the `semWait file` of its slot 59 and has been
woken: `main` gives it a turn while it is `READY` with program counter 60.  Row 60 of its
instruction memory is its first variable slot, `x=5`, whose first token is none of the
seven verbs.  The turn reports it as an unknown instruction, raises no fault and steps
the program counter to 61, but it does not leave the variables unchanged: the slot of
`x` is cleared, and a lookup of `x`, which gave 5 before the turn, finds nothing after
it. -/
theorem unknown_verb_clears_variable :
    (lastSlotVarTurnState.proc 1).pcb.process_state = ProcessState.READY ∧
    (lastSlotVarTurnState.proc 1).pcb.program_counter = MEMORY_SIZE ∧
    (lastSlotVarTurnState.proc 1).vars = ["x=5".toList, [], []] ∧
    (tokenize ((lastSlotVarTurnState.proc 1).row
      (lastSlotVarTurnState.proc 1).pcb.program_counter)).instruction = some "x=5".toList ∧
    "x=5".toList ∉ ["print".toList, "assign".toList, "writeFile".toList, "readFile".toList,
      "printFromTo".toList, "semWait".toList, "semSignal".toList] ∧
    (retrieveVariable lastSlotVarTurnState 1 (some "x".toList)).1 = some "5".toList ∧
    (executeProcess lastSlotVarTurnState 1).fault = none ∧
    (executeProcess lastSlotVarTurnState 1).out = lastSlotVarTurnState.out ++
      [Event.executing "x=5".toList 2 121, Event.unknownInstruction "x=5".toList] ∧
    ((executeProcess lastSlotVarTurnState 1).proc 1).pcb.program_counter = 61 ∧
    ((executeProcess lastSlotVarTurnState 1).proc 1).vars = [[], [], []] ∧
    ((executeProcess lastSlotVarTurnState 1).proc 1).vars
      ≠ (lastSlotVarTurnState.proc 1).vars ∧
    (retrieveVariable (executeProcess lastSlotVarTurnState 1) 1 (some "x".toList)).1
      = none ∧
    ((run 137 scenarioLastSlotVar).os.proc 1).vars = [[], [], []] := by
  decide

/-! ## The clock in a run that idles -/

theorem wrapInt_succ (x : Int) : wrapInt (wrapInt x + 1) = wrapInt (x + 1) := by
  unfold wrapInt
  omega

theorem checkArrivalsLoop_idle (arrival_times : List Int) (n i : Nat) (s : OS)
    (h : ∀ j, arrival_times.getD j 0 ≠ s.clockCycles) :
    checkArrivalsLoop arrival_times n i s = s := by
  induction n generalizing i with
  | zero => rfl
  | succ n ih => rw [checkArrivalsLoop, if_neg (h i), ih]

theorem idle_head (m : Sched) (hloc : m.loc = Loc.outerHead) (hf : m.os.fault = none)
    (ha : ∀ j, m.arrival_times.getD j 0 ≠ m.os.clockCycles) :
    mainStep m = { m with anyProcessActive := false, loc := Loc.innerHead } := by
  unfold mainStep
  simp [hf, hloc, checkArrivals, checkArrivalsLoop_idle _ _ _ _ ha]

/-- An outer-loop iteration in which no process arrives, the ready queue is empty and the
blocked queue is not: two steps, which only lower the flag and add one to the clock. -/
theorem idle_iteration (m : Sched) (hloc : m.loc = Loc.outerHead) (hf : m.os.fault = none)
    (hr : m.os.readyQueue.size = 0) (hb : m.os.blockedQueue.size ≠ 0)
    (ha : ∀ j, m.arrival_times.getD j 0 ≠ m.os.clockCycles) :
    mainStep (mainStep m) =
      { m with anyProcessActive := false
               os := { m.os with clockCycles := wrapInt (m.os.clockCycles + 1) } } := by
  rw [idle_head m hloc hf ha]
  unfold mainStep
  simp [hf, hloc, isQueueEmpty, hr, hb]

/-- After `n + 1` such iterations from a state whose clock is `wrapInt c`, none of them at
an arrival time, the clock is `wrapInt (c + (n + 1))` and nothing else has changed. -/
theorem idle_run (m : Sched) (hloc : m.loc = Loc.outerHead) (hf : m.os.fault = none)
    (hr : m.os.readyQueue.size = 0) (hb : m.os.blockedQueue.size ≠ 0) (c : Int)
    (hc : m.os.clockCycles = wrapInt c) (n : Nat)
    (ha : ∀ k : Nat, k ≤ n → ∀ j, m.arrival_times.getD j 0 ≠ wrapInt (c + k)) :
    run (2 * (n + 1)) m =
      { m with anyProcessActive := false
               os := { m.os with clockCycles := wrapInt (c + (n + 1 : Nat)) } } := by
  induction n with
  | zero =>
    have h2 := idle_iteration m hloc hf hr hb (fun j => by
      have := ha 0 (Nat.le_refl 0) j
      rw [hc]; simpa using this)
    show mainStep (mainStep m) = _
    rw [h2, hc, wrapInt_succ]
    simp
  | succ n ih =>
    have ih' := ih (fun k hk j => ha k (Nat.le_succ_of_le hk) j)
    have h2 := idle_iteration
      { m with anyProcessActive := false
               os := { m.os with clockCycles := wrapInt (c + (n + 1 : Nat)) } }
      hloc hf hr hb (fun j => ha (n + 1) (Nat.le_refl _) j)
    rw [show 2 * (n + 1 + 1) = 2 * (n + 1) + 2 from by ring, run_add, ih']
    show mainStep (mainStep _) = _
    rw [h2]
    simp only [wrapInt_succ]
    have : c + ((n + 1 : Nat) : Int) + 1 = c + ((n + 1 + 1 : Nat) : Int) := by
      push_cast; ring
    rw [this]

/-! ## A run in which no process is ready -/

theorem enqueueProcessToReadyQueue_frame (s : OS) (i : Nat) :
    (enqueueProcessToReadyQueue s i).fault = s.fault ∧
    (enqueueProcessToReadyQueue s i).blockedQueue = s.blockedQueue ∧
    (enqueueProcessToReadyQueue s i).view.pcb = s.view.pcb ∧
    (enqueueProcessToReadyQueue s i).view.execs = s.view.execs := by
  refine ⟨?_, ?_, ?_, ?_⟩
  · unfold enqueueProcessToReadyQueue; split <;> rfl
  · unfold enqueueProcessToReadyQueue; split <;> rfl
  · rw [view_enqueueProcessToReadyQueue]
  · rw [view_enqueueProcessToReadyQueue]

theorem checkArrivalsLoop_frame (a : List Int) (n : Nat) : ∀ (i : Nat) (s : OS),
    (checkArrivalsLoop a n i s).fault = s.fault ∧
    (checkArrivalsLoop a n i s).blockedQueue = s.blockedQueue ∧
    (checkArrivalsLoop a n i s).view.pcb = s.view.pcb ∧
    (checkArrivalsLoop a n i s).view.execs = s.view.execs := by
  induction n with
  | zero => intro i s; exact ⟨rfl, rfl, rfl, rfl⟩
  | succ n ih =>
    intro i s
    rw [checkArrivalsLoop]
    split
    · obtain ⟨j1, j2, j3, j4⟩ := ih (i + 1)
        (enqueueProcessToReadyQueue { s with storageQueue := enqueue s.storageQueue i } i)
      obtain ⟨e1, e2, e3, e4⟩ :=
        enqueueProcessToReadyQueue_frame { s with storageQueue := enqueue s.storageQueue i } i
      exact ⟨j1.trans e1, j2.trans e2, j3.trans e3, j4.trans e4⟩
    · exact ih (i + 1) s

/-- A state in which no process is `READY` and the blocked queue is not empty stays so
under a step of `main`: arrivals only fill the ready queue, the inner loop only drains
it, and the tail of the outer loop only ticks the clock. -/
theorem stuck_step (m0 m : Sched) (hb0 : m0.os.blockedQueue.size ≠ 0)
    (hnr : ∀ p, (m0.os.view.pcb p).process_state ≠ ProcessState.READY)
    (h : m0.Stuck m) : m0.Stuck (mainStep m) := by
  obtain ⟨hf, hloc, ha, hpcb, hbq, hex, hflag⟩ := h
  unfold mainStep
  rw [if_neg (by rw [hf]; decide)]
  split
  · -- the head of the outer loop
    obtain ⟨j1, j2, j3, j4⟩ :=
      checkArrivalsLoop_frame m.arrival_times m.arrival_times.length 0 m.os
    exact ⟨j1.trans hf, fun h => Loc.noConfusion h, ha, j3.trans hpcb, j2.trans hbq,
      j4.trans hex, fun _ => rfl⟩
  · rename_i hl
    by_cases hr : m.os.readyQueue.size = 0
    · have hre : isQueueEmpty m.os.readyQueue = true := by simp [isQueueEmpty, hr]
      have hbe : isQueueEmpty m.os.blockedQueue = false := by
        rw [hbq]; simp [isQueueEmpty, hb0]
      have hfl : m.anyProcessActive = false := hflag hl
      simp only [hre, hbe, hfl, Bool.not_true, Bool.false_eq_true, if_false, Bool.not_false,
        Bool.and_false, if_true]
      exact ⟨hf, fun h => Loc.noConfusion h, ha, hpcb, hbq, hex,
        fun h => Loc.noConfusion h⟩
    · have hre : isQueueEmpty m.os.readyQueue = false := by simp [isQueueEmpty, hr]
      simp only [hre, Bool.not_false, if_true]
      have hst : ¬ (m.os.proc (m.os.readyQueue.processes.getD m.os.readyQueue.front 0)
          ).pcb.process_state = ProcessState.READY := by
        have := hnr (m.os.readyQueue.processes.getD m.os.readyQueue.front 0)
        rw [← hpcb] at this
        exact this
      have hE : innerBody m =
          { m with os := { m.os with readyQueue := (dequeue m.os.readyQueue).2 } } := by
        unfold innerBody
        simp only [dequeue_not_empty m.os.readyQueue hr]
        rw [if_neg (by exact hst)]
      rw [hE]
      exact ⟨hf, hloc, ha, hpcb, hbq, hex, hflag⟩
  · rename_i hl
    exact absurd hl hloc

theorem stuck_run (m0 : Sched) (hb0 : m0.os.blockedQueue.size ≠ 0)
    (hnr : ∀ p, (m0.os.view.pcb p).process_state ≠ ProcessState.READY) (n : Nat) :
    ∀ m, m0.Stuck m → m0.Stuck (run n m) := by
  induction n with
  | zero => intro m h; exact h
  | succ n ih => intro m h; exact ih _ (stuck_step m0 m hb0 hnr h)

theorem no_ready (s : OS)
    (h : s.heap.all (fun pr => pr.pcb.process_state != ProcessState.READY) = true) :
    ∀ p, (s.view.pcb p).process_state ≠ ProcessState.READY := by
  intro p
  show (s.proc p).pcb.process_state ≠ ProcessState.READY
  by_cases hp : p < s.heap.length
  · have hmem : s.proc p ∈ s.heap := by
      simp only [OS.proc, List.getD_eq_getElem?_getD, List.getElem?_eq_getElem hp,
        Option.getD_some]
      exact List.getElem_mem hp
    have := List.all_eq_true.mp h _ hmem
    simpa using this
  · rw [proc_invalid s p (by omega)]
    exact fun h => ProcessState.noConfusion h

theorem zeros2_getD (j : Nat) : ([0, 0] : List Int).getD j 0 = 0 := by
  rcases j with _ | _ | j <;> rfl

theorem zeros3_getD (j : Nat) : ([0, 0, 0] : List Int).getD j 0 = 0 := by
  rcases j with _ | _ | _ | j <;> rfl

/-- C8: the deadlock scenario.  After eight steps the scheduler stands at the head of the
outer loop with both processes `BLOCKED` and in the blocked queue, the clock at 4.  At
every later step the loop has not exited, nothing has faulted, the blocked queue holds
both processes, both are `BLOCKED` and no turn has been taken.  For every n below
2147483644 the n-th further outer-loop iteration ends after 2 n steps with the clock
advanced by exactly n.  The iteration number 2147483644 increments the clock at its
largest `int` value: the clock is then -2147483648, not its value before plus
2147483644. -/
theorem deadlock_clock_overflows :
    (run 8 scenarioDeadlock).loc = Loc.outerHead ∧
    (run 8 scenarioDeadlock).os.blockedQueue.contents = [0, 1] ∧
    ((run 8 scenarioDeadlock).os.proc 0).pcb.process_state = ProcessState.BLOCKED ∧
    ((run 8 scenarioDeadlock).os.proc 1).pcb.process_state = ProcessState.BLOCKED ∧
    (run 8 scenarioDeadlock).os.clockCycles = 4 ∧
    (∀ k, (run (8 + k) scenarioDeadlock).loc ≠ Loc.exited ∧
          (run (8 + k) scenarioDeadlock).os.fault = none ∧
          (run (8 + k) scenarioDeadlock).os.blockedQueue.contents = [0, 1] ∧
          ((run (8 + k) scenarioDeadlock).os.proc 0).pcb.process_state
            = ProcessState.BLOCKED ∧
          ((run (8 + k) scenarioDeadlock).os.proc 1).pcb.process_state
            = ProcessState.BLOCKED ∧
          executions (run (8 + k) scenarioDeadlock).os.out
            = executions (run 8 scenarioDeadlock).os.out) ∧
    (∀ n : Fin 2147483644,
          (run (8 + 2 * n.val) scenarioDeadlock).loc = Loc.outerHead ∧
          (run (8 + 2 * n.val) scenarioDeadlock).os.clockCycles
            = (run 8 scenarioDeadlock).os.clockCycles + (n.val : Int)) ∧
    (run (8 + 2 * 2147483644) scenarioDeadlock).loc = Loc.outerHead ∧
    (run (8 + 2 * 2147483644) scenarioDeadlock).os.clockCycles = -2147483648 ∧
    (run (8 + 2 * 2147483644) scenarioDeadlock).os.clockCycles
      ≠ (run 8 scenarioDeadlock).os.clockCycles + 2147483644 := by
  obtain ⟨hloc, hf, hr, hb, hbc, ha, hc, h0, h1⟩ := scenarioDeadlock_run
  have hb0 : (run 8 scenarioDeadlock).os.blockedQueue.size ≠ 0 := by rw [hb]; decide
  have hc' : (run 8 scenarioDeadlock).os.clockCycles = wrapInt 4 := by rw [hc]; decide
  have hnr := no_ready (run 8 scenarioDeadlock).os (by decide)
  have hst0 : (run 8 scenarioDeadlock).Stuck (run 8 scenarioDeadlock) :=
    ⟨hf, by rw [hloc]; decide, rfl, rfl, rfl, rfl, fun h => by rw [hloc] at h; cases h⟩
  have harr : ∀ k : Nat, k ≤ 2147483643 →
      ∀ j, (run 8 scenarioDeadlock).arrival_times.getD j 0 ≠ wrapInt (4 + k) := by
    intro k hk j
    rw [ha, zeros2_getD]
    unfold wrapInt
    omega
  have hB : run (8 + 2 * 2147483644) scenarioDeadlock =
      { run 8 scenarioDeadlock with
        anyProcessActive := false
        os := { (run 8 scenarioDeadlock).os with clockCycles := -2147483648 } } := by
    rw [run_add, show 2 * 2147483644 = 2 * (2147483643 + 1) from by norm_num,
      idle_run _ hloc hf hr hb0 4 hc' 2147483643 harr]
    have : wrapInt (4 + ((2147483643 + 1 : Nat) : Int)) = -2147483648 := by
      norm_num [wrapInt]
    rw [this]
  refine ⟨hloc, hbc, h0, h1, hc, ?_, ?_, ?_, ?_, ?_⟩
  · intro k
    obtain ⟨s1, s2, -, s4, s5, s6, -⟩ := stuck_run _ hb0 hnr k _ hst0
    rw [run_add]
    refine ⟨s2, s1, by rw [s5]; exact hbc, ?_, ?_, s6⟩
    · exact (congrArg PCB.process_state (congrFun s4 0)).trans h0
    · exact (congrArg PCB.process_state (congrFun s4 1)).trans h1
  · intro n
    obtain ⟨n, hn⟩ := n
    show (run (8 + 2 * n) scenarioDeadlock).loc = Loc.outerHead ∧
      (run (8 + 2 * n) scenarioDeadlock).os.clockCycles
        = (run 8 scenarioDeadlock).os.clockCycles + (n : Int)
    cases n with
    | zero => exact ⟨hloc, by simp⟩
    | succ k =>
      rw [run_add, idle_run _ hloc hf hr hb0 4 hc' k
        (fun k' hk' j => harr k' (by omega) j)]
      refine ⟨hloc, ?_⟩
      show wrapInt (4 + ((k + 1 : Nat) : Int)) = _
      rw [hc]
      unfold wrapInt
      push_cast
      omega
  · rw [hB]; exact hloc
  · rw [hB]
  · rw [hB, hc]; decide

set_option maxRecDepth 100000 in
theorem scenarioFinishedDeadlock_run :
    (run 9 scenarioFinishedDeadlock).loc = Loc.outerHead ∧
    (run 9 scenarioFinishedDeadlock).os.fault = none ∧
    (run 9 scenarioFinishedDeadlock).os.readyQueue.size = 0 ∧
    (run 9 scenarioFinishedDeadlock).os.blockedQueue.size = 2 ∧
    (run 9 scenarioFinishedDeadlock).arrival_times = [0, 0, 0] ∧
    (run 9 scenarioFinishedDeadlock).os.clockCycles = 5 ∧
    ((run 9 scenarioFinishedDeadlock).os.proc 0).pcb.process_state
      = ProcessState.FINISHED := by
  decide

set_option maxRecDepth 100000 in
/-- C13: `FINISHED` is terminal.  In `scenarioFinishedDeadlock` the first process (pointer
0) is `FINISHED` after two steps; after nine steps the other two are deadlocked, the
ready queue is empty and the clock is 5.  At every later step the first process is still
`FINISHED` and no turn has been taken.  But the idle loop keeps incrementing the `int`
clock: after 4294967291 further outer-loop iterations it has wrapped around to 0, the
arrival time of the first process, and the next step, the arrival loop of lines 461-466,
enqueues the finished process in the storage unit and in the ready queue once more. -/
theorem finished_process_readmitted :
    ((run 2 scenarioFinishedDeadlock).os.proc 0).pcb.process_state
      = ProcessState.FINISHED ∧
    (run 9 scenarioFinishedDeadlock).loc = Loc.outerHead ∧
    (run 9 scenarioFinishedDeadlock).os.clockCycles = 5 ∧
    (run 9 scenarioFinishedDeadlock).os.readyQueue.contents = [] ∧
    (run 9 scenarioFinishedDeadlock).os.blockedQueue.contents = [1, 2] ∧
    (run 9 scenarioFinishedDeadlock).os.storageQueue.contents = [1] ∧
    (∀ k, ((run (9 + k) scenarioFinishedDeadlock).os.proc 0).pcb.process_state
            = ProcessState.FINISHED ∧
          executions (run (9 + k) scenarioFinishedDeadlock).os.out
            = executions (run 9 scenarioFinishedDeadlock).os.out ∧
          (run (9 + k) scenarioFinishedDeadlock).os.fault = none) ∧
    (run (9 + 2 * 4294967291) scenarioFinishedDeadlock).loc = Loc.outerHead ∧
    (run (9 + 2 * 4294967291) scenarioFinishedDeadlock).os.clockCycles = 0 ∧
    (run (9 + 2 * 4294967291) scenarioFinishedDeadlock).os.readyQueue.contents = [] ∧
    (run (9 + 2 * 4294967291) scenarioFinishedDeadlock).os.storageQueue.contents = [1] ∧
    (run (9 + 2 * 4294967291 + 1) scenarioFinishedDeadlock).os.readyQueue.contents
      = [0, 1, 2] ∧
    (run (9 + 2 * 4294967291 + 1) scenarioFinishedDeadlock).os.storageQueue.contents
      = [1, 0, 1, 2] ∧
    (run (9 + 2 * 4294967291 + 1) scenarioFinishedDeadlock).os.out
      = (run 9 scenarioFinishedDeadlock).os.out
          ++ [Event.arrived 1 0, Event.arrived 2 0, Event.arrived 3 0] ∧
    ((run (9 + 2 * 4294967291 + 1) scenarioFinishedDeadlock).os.proc 0).pcb.process_state
      = ProcessState.FINISHED := by
  obtain ⟨hloc, hf, hr, hb, ha, hc, h0⟩ := scenarioFinishedDeadlock_run
  have hb0 : (run 9 scenarioFinishedDeadlock).os.blockedQueue.size ≠ 0 := by rw [hb]; decide
  have hc' : (run 9 scenarioFinishedDeadlock).os.clockCycles = wrapInt 5 := by rw [hc]; decide
  have hnr := no_ready (run 9 scenarioFinishedDeadlock).os (by decide)
  have hst0 : (run 9 scenarioFinishedDeadlock).Stuck (run 9 scenarioFinishedDeadlock) :=
    ⟨hf, by rw [hloc]; decide, rfl, rfl, rfl, rfl, fun h => by rw [hloc] at h; cases h⟩
  have harr : ∀ k : Nat, k ≤ 4294967290 →
      ∀ j, (run 9 scenarioFinishedDeadlock).arrival_times.getD j 0 ≠ wrapInt (5 + k) := by
    intro k hk j
    rw [ha, zeros3_getD]
    unfold wrapInt
    omega
  have hB : run (9 + 2 * 4294967291) scenarioFinishedDeadlock =
      { run 9 scenarioFinishedDeadlock with
        anyProcessActive := false
        os := { (run 9 scenarioFinishedDeadlock).os with clockCycles := 0 } } := by
    rw [run_add, show 2 * 4294967291 = 2 * (4294967290 + 1) from by norm_num,
      idle_run _ hloc hf hr hb0 5 hc' 4294967290 harr]
    have : wrapInt (5 + ((4294967290 + 1 : Nat) : Int)) = 0 := by
      norm_num [wrapInt]
    rw [this]
  have hB1 : run (9 + 2 * 4294967291 + 1) scenarioFinishedDeadlock =
      mainStep
        { run 9 scenarioFinishedDeadlock with
          anyProcessActive := false
          os := { (run 9 scenarioFinishedDeadlock).os with clockCycles := 0 } } := by
    rw [run_add, hB]
    rfl
  refine ⟨by decide, hloc, hc, by decide, by decide, by decide, ?_, ?_, ?_, ?_, ?_, ?_, ?_,
    ?_, ?_⟩
  · intro k
    obtain ⟨s1, -, -, s4, -, s6, -⟩ := stuck_run _ hb0 hnr k _ hst0
    rw [run_add]
    exact ⟨(congrArg PCB.process_state (congrFun s4 0)).trans h0, s6, s1⟩
  · rw [hB]; exact hloc
  · rw [hB]
  · rw [hB]; decide
  · rw [hB]; decide
  · rw [hB1]; decide
  · rw [hB1]; decide
  · rw [hB1]; decide
  · rw [hB1]; decide

end OperatingSystem
